import Mathlib

/-!
Verification of the hTrust trust-registry core.

The development shallowly embeds the statement codec
(`FederationJwtUtils` in `minimal-federation.controller.ts`), the trust
chain resolver (`TrustChainService` and `EntityRegistryService` in
`trust-chain.service.ts`), the registry query facade
(`TrustRegistryService`, both the simple and the trust-chain variant),
and the registration validator (`EntitiesService` in
`entities.service.ts`).

Strings on the JWT wire are modelled as byte sequences (`List Nat`, one
entry per UTF-8 byte); JavaScript values flowing through
`JSON.stringify` / `JSON.parse` are modelled by the inductive `Json`.
The trust-chain and registration subsystems never leave string land, so
they use Lean `String` directly.
-/

namespace HTrust

/-- ASCII bytes of a Lean string literal (used for wire-format constants). -/
def bs (s : String) : List Nat := s.data.map Char.toNat

mutual
/-- JavaScript values as seen by `JSON.stringify` and `JSON.parse`.
Strings are byte sequences; numbers are integers (the timestamps and
claim numbers used by the system are integral, floats never occur). -/
inductive Json where
  | jnull : Json
  | jbool : Bool → Json
  | jnum : Int → Json
  | jstr : List Nat → Json
  | jarr : JArr → Json
  | jobj : JObj → Json
inductive JArr where
  | anil : JArr
  | acons : Json → JArr → JArr
inductive JObj where
  | onil : JObj
  | ocons : List Nat → Json → JObj → JObj
end

/-- Decimal digit bytes of a positive number, least significant first. -/
def natBytesAux (n : Nat) : List Nat :=
  if n = 0 then [] else (48 + n % 10) :: natBytesAux (n / 10)
termination_by n
decreasing_by exact Nat.div_lt_self (Nat.pos_of_ne_zero (by assumption)) (by omega)

/-- Decimal representation of a natural number, as bytes. -/
def natBytes (n : Nat) : List Nat := if n = 0 then [48] else (natBytesAux n).reverse

/-- Decimal representation of an integer, as bytes (model of JS number printing
for integral values). -/
def intBytes (n : Int) : List Nat :=
  if n < 0 then 45 :: natBytes (-n).toNat else natBytes n.toNat

/-- JSON string-content escaping: `"` and `\` get a backslash, other bytes pass
through (model of `JSON.stringify` restricted to strings without control
characters, the subset the system produces). -/
def escBytes : List Nat → List Nat
  | [] => []
  | b :: r => (if b = 34 then [92, 34] else if b = 92 then [92, 92] else [b]) ++ escBytes r

mutual
/-- Serialization of a `Json` value to bytes: model of `JSON.stringify`
(no whitespace, object keys in insertion order). -/
def Json.stringify : Json → List Nat
  | .jnull => [110, 117, 108, 108]
  | .jbool true => [116, 114, 117, 101]
  | .jbool false => [102, 97, 108, 115, 101]
  | .jnum n => intBytes n
  | .jstr s => 34 :: (escBytes s ++ [34])
  | .jarr .anil => [91, 93]
  | .jarr (.acons v vs) => 91 :: (Json.stringify v ++ JArr.stringifyTail vs ++ [93])
  | .jobj .onil => [123, 125]
  | .jobj (.ocons k v fs) =>
      123 :: (34 :: (escBytes k ++ [34]) ++ (58 :: Json.stringify v) ++ JObj.stringifyTail fs ++ [125])
def JArr.stringifyTail : JArr → List Nat
  | .anil => []
  | .acons v vs => 44 :: (Json.stringify v ++ JArr.stringifyTail vs)
def JObj.stringifyTail : JObj → List Nat
  | .onil => []
  | .ocons k v fs =>
      44 :: (34 :: (escBytes k ++ [34]) ++ (58 :: Json.stringify v) ++ JObj.stringifyTail fs)
end

/-- Property lookup on a JSON object; later duplicate keys win, as in
JavaScript. Lookup on a non-object yields `none` (JS `undefined`). -/
def JObj.lookupKey : JObj → List Nat → Option Json
  | .onil, _ => none
  | .ocons k v fs, key =>
      match JObj.lookupKey fs key with
      | some r => some r
      | none => if k = key then some v else none

/-- JS property access `o.key` (undefined on non-objects and missing keys). -/
def Json.get : Json → List Nat → Option Json
  | .jobj fs, key => JObj.lookupKey fs key
  | _, _ => none

/-- JavaScript truthiness of a value. -/
def Json.truthy : Json → Bool
  | .jnull => false
  | .jbool b => b
  | .jnum n => n != 0
  | .jstr s => !s.isEmpty
  | .jarr _ => true
  | .jobj _ => true

/-- Truthiness of a property access (`!o.key` is the negation of this). -/
def truthyField (j : Json) (k : List Nat) : Bool :=
  match j.get k with
  | some v => v.truthy
  | none => false

/-- JS comparison `v < n` for a possibly-undefined field against a number;
numeric fields compare numerically, `undefined` and non-numeric values give
`false` (the modelled subset: the system only compares numeric timestamps). -/
def jsLtNum (o : Option Json) (n : Int) : Bool :=
  match o with
  | some (.jnum m) => m < n
  | _ => false

mutual
/-- Fuel measure for the JSON scanner: an upper bound on the recursion depth
`parseVal` needs on the printed form of a value. -/
def Json.psize : Json → Nat
  | .jnull => 1
  | .jbool _ => 1
  | .jnum _ => 1
  | .jstr _ => 1
  | .jarr .anil => 1
  | .jarr (.acons v vs) => 2 + Json.psize v + JArr.psizeTail vs
  | .jobj .onil => 1
  | .jobj (.ocons _ v fs) => 2 + Json.psize v + JObj.psizeTail fs
def JArr.psizeTail : JArr → Nat
  | .anil => 0
  | .acons v vs => 1 + Json.psize v + JArr.psizeTail vs
def JObj.psizeTail : JObj → Nat
  | .onil => 0
  | .ocons _ v fs => 1 + Json.psize v + JObj.psizeTail fs
end

mutual
/-- Well-formed values: every string is a byte sequence (entries below 256),
the invariant JS strings satisfy once UTF-8 encoded. -/
def Json.wf : Json → Bool
  | .jnull => true
  | .jbool _ => true
  | .jnum _ => true
  | .jstr s => s.all (fun b => b < 256)
  | .jarr xs => JArr.wfTail xs
  | .jobj fs => JObj.wfTail fs
def JArr.wfTail : JArr → Bool
  | .anil => true
  | .acons v vs => Json.wf v && JArr.wfTail vs
def JObj.wfTail : JObj → Bool
  | .onil => true
  | .ocons k v fs => k.all (fun b => b < 256) && Json.wf v && JObj.wfTail fs
end

/-- Sextet to base64 alphabet byte. -/
def b64c (s : Nat) : Nat :=
  if s < 26 then 65 + s
  else if s < 52 then 71 + s
  else if s < 62 then s - 4
  else if s = 62 then 43 else 47

/-- Base64 encoding of a byte sequence with `=` padding (model of Node's
`Buffer.toString('base64')`). -/
def b64enc : List Nat → List Nat
  | [] => []
  | [a] => [b64c (a / 4), b64c (a % 4 * 16), 61, 61]
  | [a, b] => [b64c (a / 4), b64c (a % 4 * 16 + b / 16), b64c (b % 16 * 4), 61]
  | a :: b :: c :: rest =>
      b64c (a / 4) :: b64c (a % 4 * 16 + b / 16) :: b64c (b % 16 * 4 + c / 64) ::
        b64c (c % 64) :: b64enc rest

/-- Base64 alphabet byte back to its sextet. -/
def b64dc (c : Nat) : Nat :=
  if 65 ≤ c ∧ c ≤ 90 then c - 65
  else if 97 ≤ c ∧ c ≤ 122 then c - 71
  else if 48 ≤ c ∧ c ≤ 57 then c + 4
  else if c = 43 then 62
  else if c = 47 then 63 else 0

/-- Base64 decoding of a padded character sequence back to bytes (model of
`Buffer.from(x, 'base64')`, lenient about short trailing groups as Node is). -/
def b64dec : List Nat → List Nat
  | p :: q :: r :: s :: rest =>
      if r = 61 then [b64dc p * 4 + b64dc q / 16]
      else if s = 61 then [b64dc p * 4 + b64dc q / 16, b64dc q % 16 * 16 + b64dc r / 4]
      else (b64dc p * 4 + b64dc q / 16) :: (b64dc q % 16 * 16 + b64dc r / 4) ::
             (b64dc r % 4 * 64 + b64dc s) :: b64dec rest
  | [p, q, r] =>
      if r = 61 then [b64dc p * 4 + b64dc q / 16]
      else [b64dc p * 4 + b64dc q / 16, b64dc q % 16 * 16 + b64dc r / 4]
  | [p, q] => [b64dc p * 4 + b64dc q / 16]
  | _ => []

/-- Model of JS `String.split('.')` on byte sequences. -/
def splitDot : List Nat → List (List Nat)
  | [] => [[]]
  | b :: r =>
      if b = 46 then [] :: splitDot r
      else
        match splitDot r with
        | [] => [[b]]
        | h :: t => (b :: h) :: t

namespace FederationJwtUtils

/-- `base64UrlEncode`: base64 then `+`→`-`, `/`→`_`, strip `=` (mirrors the
three `replace` calls in the source). -/
def base64UrlEncode (x : List Nat) : List Nat :=
  (((b64enc x).map (fun c => if c = 43 then 45 else c)).map
      (fun c => if c = 47 then 95 else c)).filter (fun c => c ≠ 61)

/-- `base64UrlDecode`: re-pad with `=`, `-`→`+`, `_`→`/`, then base64 decode. -/
def base64UrlDecode (s : List Nat) : List Nat :=
  b64dec ((((s ++ List.replicate ((4 - s.length % 4) % 4) 61).map
      (fun c => if c = 45 then 43 else c)).map (fun c => if c = 95 then 47 else c)))

/-- Composite of the two encode-side character replacements. -/
def urlFwd (c : Nat) : Nat :=
  (fun c => if c = 47 then 95 else c) ((fun c => if c = 43 then 45 else c) c)

/-- Composite of the two decode-side character replacements. -/
def urlBack (c : Nat) : Nat :=
  (fun c => if c = 95 then 47 else c) ((fun c => if c = 45 then 43 else c) c)

/-- Hex digit byte (lowercase) of a value below 16. -/
def hexDigitByte (d : Nat) : Nat := if d < 10 then 48 + d else 87 + d

/-- Modelled from the spec: the source calls the platform primitive
`crypto.createHash('sha256').update(data).digest('hex')`, which is not part of
this repository. Spec section 4.2 describes it as a one-way digest treated as
the mock signature, whose internal shape callers must never depend on. It is
modelled as a deterministic executable digest producing 64 hex-digit bytes. -/
def sha256hex (input : List Nat) : List Nat :=
  let h := input.foldl (fun acc b => (acc * 16777619 + b + 1) % 18446744073709551616)
    14695981039346656037
  (List.range 64).map (fun i => hexDigitByte ((h / 16 ^ (i % 16) + i) % 16))

/-- `createMockSignature`: digest of `header ++ "." ++ payload ++ kid`,
base64url-encoded. -/
def createMockSignature (header payload kid : List Nat) : List Nat :=
  base64UrlEncode (sha256hex (header ++ 46 :: (payload ++ kid)))

/-- The signing key as the codec sees it: of the source's `JsonWebKey` record
only `kid` is ever read by `createEntityStatement` / `createTrustMark`. -/
structure JsonWebKey where
  kid : List Nat

/-- `createEntityStatement`: header `typ: entity-statement+jwt, alg: RS256,
kid`, base64url-encoded header and claims, mock signature, dot-joined. -/
def createEntityStatement (claims : Json) (privateKey : JsonWebKey) : List Nat :=
  let header : Json :=
    .jobj (.ocons (bs "typ") (.jstr (bs "entity-statement+jwt"))
      (.ocons (bs "alg") (.jstr (bs "RS256"))
        (.ocons (bs "kid") (.jstr privateKey.kid) .onil)))
  let encodedHeader := base64UrlEncode header.stringify
  let encodedPayload := base64UrlEncode claims.stringify
  let signature := createMockSignature encodedHeader encodedPayload privateKey.kid
  encodedHeader ++ 46 :: (encodedPayload ++ 46 :: signature)

/-- `createTrustMark`: as `createEntityStatement` but with
`typ: trust-mark+jwt`. -/
def createTrustMark (claims : Json) (privateKey : JsonWebKey) : List Nat :=
  let header : Json :=
    .jobj (.ocons (bs "typ") (.jstr (bs "trust-mark+jwt"))
      (.ocons (bs "alg") (.jstr (bs "RS256"))
        (.ocons (bs "kid") (.jstr privateKey.kid) .onil)))
  let encodedHeader := base64UrlEncode header.stringify
  let encodedPayload := base64UrlEncode claims.stringify
  let signature := createMockSignature encodedHeader encodedPayload privateKey.kid
  encodedHeader ++ 46 :: (encodedPayload ++ 46 :: signature)

/-- The Entity Statement header object built by `createEntityStatement`. -/
def esHeader (kid : List Nat) : Json :=
  .jobj (.ocons (bs "typ") (.jstr (bs "entity-statement+jwt"))
    (.ocons (bs "alg") (.jstr (bs "RS256"))
      (.ocons (bs "kid") (.jstr kid) .onil)))

/-- The Trust Mark header object built by `createTrustMark`. -/
def tmHeader (kid : List Nat) : Json :=
  .jobj (.ocons (bs "typ") (.jstr (bs "trust-mark+jwt"))
    (.ocons (bs "alg") (.jstr (bs "RS256"))
      (.ocons (bs "kid") (.jstr kid) .onil)))

/-- JSON string-body scanner: reads up to the closing quote, undoing the
escapes `escBytes` can produce. -/
def parseStrBody : List Nat → Option (List Nat × List Nat)
  | [] => none
  | b :: r =>
      if b = 34 then some ([], r)
      else if b = 92 then
        match r with
        | 34 :: r2 => (parseStrBody r2).map (fun p => (34 :: p.1, p.2))
        | 92 :: r2 => (parseStrBody r2).map (fun p => (92 :: p.1, p.2))
        | _ => none
      else (parseStrBody r).map (fun p => (b :: p.1, p.2))

/-- Digit byte test. -/
def isDigitB (b : Nat) : Bool := 48 ≤ b && b ≤ 57

/-- Value of a digit-byte sequence, most significant first. -/
def digitsVal (l : List Nat) : Nat := l.foldl (fun a d => a * 10 + (d - 48)) 0

/-- A byte sequence that does not continue a decimal number: empty, or led by
a non-digit (the shape of every context following a printed number). -/
def nonNumTail (rest : List Nat) : Prop :=
  rest = [] ∨ ∃ d t, rest = d :: t ∧ isDigitB d = false

/-- Scanner for an unsigned decimal number. -/
def parseNatNum (input : List Nat) : Option (Nat × List Nat) :=
  let ds := input.takeWhile isDigitB
  if ds.isEmpty then none else some (digitsVal ds, input.drop ds.length)

mutual
/-- Fueled JSON value scanner: model of `JSON.parse` on the whitespace-free
integer subset the codec emits. `parseElems` scans the comma-separated
elements of a non-empty array up to `]`, `parseFields` the members of a
non-empty object up to the closing brace. -/
def parseVal : Nat → List Nat → Option (Json × List Nat)
  | 0, _ => none
  | f + 1, input =>
      match input with
      | [] => none
      | b :: r =>
          if b = 110 then
            match r with
            | 117 :: 108 :: 108 :: r2 => some (.jnull, r2)
            | _ => none
          else if b = 116 then
            match r with
            | 114 :: 117 :: 101 :: r2 => some (.jbool true, r2)
            | _ => none
          else if b = 102 then
            match r with
            | 97 :: 108 :: 115 :: 101 :: r2 => some (.jbool false, r2)
            | _ => none
          else if b = 34 then (parseStrBody r).map (fun p => (.jstr p.1, p.2))
          else if b = 91 then
            if r.headD 0 = 93 then some (.jarr .anil, r.tail) else parseElems f r
          else if b = 123 then
            if r.headD 0 = 125 then some (.jobj .onil, r.tail) else parseFields f r
          else if b = 45 then (parseNatNum r).map (fun p => (.jnum (-(p.1 : Int)), p.2))
          else if isDigitB b then
            (parseNatNum (b :: r)).map (fun p => (.jnum (p.1 : Int), p.2))
          else none
def parseElems : Nat → List Nat → Option (Json × List Nat)
  | 0, _ => none
  | f + 1, input =>
      match parseVal f input with
      | some (v, 44 :: r) =>
          match parseElems f r with
          | some (.jarr vs, r2) => some (.jarr (.acons v vs), r2)
          | _ => none
      | some (v, 93 :: r) => some (.jarr (.acons v .anil), r)
      | _ => none
def parseFields : Nat → List Nat → Option (Json × List Nat)
  | 0, _ => none
  | f + 1, input =>
      match input with
      | 34 :: r =>
          match parseStrBody r with
          | some (k, 58 :: r2) =>
              match parseVal f r2 with
              | some (v, 44 :: r3) =>
                  match parseFields f r3 with
                  | some (.jobj fs, r4) => some (.jobj (.ocons k v fs), r4)
                  | _ => none
              | some (v, 125 :: r3) => some (.jobj (.ocons k v .onil), r3)
              | _ => none
          | _ => none
      | _ => none
end

/-- Model of `JSON.parse`: scan one value, demand the input be consumed. -/
def jsonParse (s : List Nat) : Option Json :=
  match parseVal (s.length + 1) s with
  | some (j, []) => some j
  | _ => none

/-- `parseJwt`: split on `.`, demand three segments, base64url-decode and
JSON-parse header and payload (a JS exception is modelled as `none`). -/
def parseJwt (jwt : List Nat) : Option (Json × Json × List Nat) :=
  match splitDot jwt with
  | [h, p, s] =>
      match jsonParse (base64UrlDecode h), jsonParse (base64UrlDecode p) with
      | some hj, some pj => some (hj, pj, s)
      | _, _ => none
  | _ => none

/-- `validateEntityStatement`: structural validation of an Entity Statement
JWT at time `now` (the source reads `Math.floor(Date.now() / 1000)`; the
model takes it as a parameter). -/
def validateEntityStatement (jwt : List Nat) (now : Int) : Bool :=
  match parseJwt jwt with
  | none => false
  | some (header, payload, _) =>
      match header.get (bs "typ") with
      | some (.jstr t) =>
          if t = bs "entity-statement+jwt" then
            if truthyField header (bs "alg") && truthyField header (bs "kid") then
              if truthyField payload (bs "iss") && truthyField payload (bs "sub") &&
                  truthyField payload (bs "iat") && truthyField payload (bs "exp") &&
                  truthyField payload (bs "jwks") then
                if jsLtNum (payload.get (bs "exp")) now then false else true
              else false
            else false
          else false
      | _ => false

/-- `validateTrustMark`: structural validation of a Trust Mark JWT at time
`now`; the expiry check `payload.exp && payload.exp < now` only fires for a
truthy `exp`. -/
def validateTrustMark (jwt : List Nat) (now : Int) : Bool :=
  match parseJwt jwt with
  | none => false
  | some (header, payload, _) =>
      match header.get (bs "typ") with
      | some (.jstr t) =>
          if t = bs "trust-mark+jwt" then
            if truthyField header (bs "alg") && truthyField header (bs "kid") then
              if truthyField payload (bs "iss") && truthyField payload (bs "sub") &&
                  truthyField payload (bs "iat") && truthyField payload (bs "id") then
                if truthyField payload (bs "exp") && jsLtNum (payload.get (bs "exp")) now
                then false else true
              else false
            else false
          else false
      | _ => false

/-- The checks `validateTrustMark` performs on a successfully parsed header
and payload (the body of the function after `parseJwt` succeeds), named so
the validation logic can be analysed separately from the decoding step. -/
def tmCheck (header payload : Json) (now : Int) : Bool :=
  match header.get (bs "typ") with
  | some (.jstr t) =>
      if t = bs "trust-mark+jwt" then
        if truthyField header (bs "alg") && truthyField header (bs "kid") then
          if truthyField payload (bs "iss") && truthyField payload (bs "sub") &&
              truthyField payload (bs "iat") && truthyField payload (bs "id") then
            if truthyField payload (bs "exp") && jsLtNum (payload.get (bs "exp")) now
            then false else true
          else false
        else false
      else false
  | _ => false

/-- `isExpired`: a timestamp is expired when strictly below the current one. -/
def isExpired (exp now : Int) : Bool := exp < now

end FederationJwtUtils

/-- A precomputed trust chain entry (`TrustChain` in
`trust-chain.service.ts`). -/
structure TrustChain where
  entityId : String
  chain : List String
  trustAnchor : String
  isValid : Bool
deriving DecidableEq

/-- Trust status record (`EntityTrustStatus`); `metadata` is an association
list of the string fields the seed data carries. -/
structure EntityTrustStatus where
  entityId : String
  isTrusted : Bool
  trustChains : List TrustChain
  trustMarks : Option (List String)
  metadata : Option (List (String × String))
deriving DecidableEq

/-- JS `Map.get` on an insertion-ordered association list. -/
def mapGet {α : Type} (m : List (String × α)) (k : String) : Option α :=
  match m with
  | [] => none
  | (k', v) :: r => if k' = k then some v else mapGet r k

/-- JS `Map.set`: replace in place when the key exists, append otherwise. -/
def mapSet {α : Type} (m : List (String × α)) (k : String) (v : α) : List (String × α) :=
  match m with
  | [] => [(k, v)]
  | (k', v') :: r => if k' = k then (k, v) :: r else (k', v') :: mapSet r k v

namespace TrustChainService

/-- The trust-anchor list of `TrustChainService`. -/
def trustAnchors : List String :=
  ["https://trust-anchor.example.org", "https://federation.example.org"]

/-- The seeded trusted-entities map of `TrustChainService`. -/
def trustedEntities : List (String × EntityTrustStatus) :=
  [("https://rp.example.org",
    { entityId := "https://rp.example.org"
      isTrusted := true
      trustChains := [{ entityId := "https://rp.example.org", chain := [],
                        trustAnchor := "https://trust-anchor.example.org", isValid := true }]
      trustMarks := none
      metadata := some [("organization_name", "Example Relying Party"),
                        ("entity_type", "openid_relying_party")] }),
   ("https://op.example.org",
    { entityId := "https://op.example.org"
      isTrusted := true
      trustChains := [{ entityId := "https://op.example.org", chain := [],
                        trustAnchor := "https://trust-anchor.example.org", isValid := true }]
      trustMarks := none
      metadata := some [("organization_name", "Example OpenID Provider"),
                        ("entity_type", "openid_provider")] }),
   ("https://intermediate.example.org",
    { entityId := "https://intermediate.example.org"
      isTrusted := true
      trustChains := [{ entityId := "https://intermediate.example.org", chain := [],
                        trustAnchor := "https://federation.example.org", isValid := true }]
      trustMarks := none
      metadata := some [("organization_name", "Intermediate Authority"),
                        ("entity_type", "federation_entity")] })]

/-- `resolveTrustChain`: a directly trusted entity yields its first stored
chain (`trustChains[0]`, `undefined` on an empty list); unknown entities
yield nothing — authority hints are not walked. -/
def resolveTrustChain (m : List (String × EntityTrustStatus)) (entityId : String) :
    Option TrustChain :=
  match mapGet m entityId with
  | some trustedEntity => trustedEntity.trustChains.head?
  | none => none

/-- `verifyEntityTrust`: a known entry is returned verbatim; otherwise a chain
is resolved and, when valid, a fresh trusted status is synthesized; else an
untrusted status. -/
def verifyEntityTrust (m : List (String × EntityTrustStatus)) (entityId : String) :
    EntityTrustStatus :=
  match mapGet m entityId with
  | some trustedEntity => trustedEntity
  | none =>
      match resolveTrustChain m entityId with
      | some trustChain =>
          if trustChain.isValid then
            { entityId := entityId, isTrusted := true, trustChains := [trustChain],
              trustMarks := none, metadata := some [] }
          else
            { entityId := entityId, isTrusted := false, trustChains := [],
              trustMarks := none, metadata := some [] }
      | none =>
          { entityId := entityId, isTrusted := false, trustChains := [],
            trustMarks := none, metadata := some [] }

/-- The static assertion table of `checkEntityAuthorization`. -/
def assertionMap (assertionId : String) : List String :=
  if assertionId = "openid_relying_party" then ["https://rp.example.org"]
  else if assertionId = "openid_provider" then ["https://op.example.org"]
  else if assertionId = "federation_entity" then
    ["https://intermediate.example.org", "https://federation.example.org"]
  else if assertionId = "trust_mark_issuer" then ["https://trust-anchor.example.org"]
  else []

/-- `checkEntityAuthorization`: untrusted entities are refused outright;
otherwise membership in the static assertion table decides (the authority
argument is accepted but never used, as in the source). -/
def checkEntityAuthorization (m : List (String × EntityTrustStatus))
    (entityId assertionId : String) (_authorityId : Option String) : Bool :=
  let trustStatus := verifyEntityTrust m entityId
  if !trustStatus.isTrusted then false
  else (assertionMap assertionId).contains entityId

/-- `addTrustedEntity`: the only mutator of the trusted-entities map. -/
def addTrustedEntity (m : List (String × EntityTrustStatus)) (entityId : String)
    (metadata : Option (List (String × String))) (trustAnchor : String) :
    List (String × EntityTrustStatus) :=
  mapSet m entityId
    { entityId := entityId, isTrusted := true,
      trustChains := [{ entityId := entityId, chain := [], trustAnchor := trustAnchor,
                        isValid := true }],
      trustMarks := none, metadata := metadata }

end TrustChainService

/-- Response shape of the Recognition API. -/
structure RecognitionResponse where
  entity_id : String
  authority_id : String
  assertion_id : Option String
  recognized : Bool
  message : String
deriving DecidableEq

/-- The service base identifier: `process.env.BASE_URL` with its shipped
default `https://trs.example.org`. -/
def baseUrl : String := "https://trs.example.org"

namespace TrustRegistryService

/-- The trust-chain-aware `TrustRegistryService.queryRecognition`: the subject
must be trusted, the authority must be the base URL or itself trusted, and a
supplied assertion must additionally be authorized. -/
def queryRecognition (m : List (String × EntityTrustStatus))
    (entity_id authority_id : String) (assertion_id : Option String) :
    RecognitionResponse :=
  let trustStatus := TrustChainService.verifyEntityTrust m entity_id
  let authorityValid :=
    (authority_id == baseUrl) || (TrustChainService.verifyEntityTrust m authority_id).isTrusted
  let recognized0 := trustStatus.isTrusted && authorityValid
  let recognized :=
    match assertion_id with
    | some aid =>
        if recognized0 then
          TrustChainService.checkEntityAuthorization m entity_id aid (some authority_id)
        else recognized0
    | none => recognized0
  { entity_id := entity_id, authority_id := authority_id, assertion_id := assertion_id
    recognized := recognized
    message :=
      (if recognized then "Entity " ++ entity_id ++ " is recognized by " ++ authority_id
       else "Entity " ++ entity_id ++ " is not recognized by " ++ authority_id) ++
      (match assertion_id with
       | some aid => " for " ++ aid
       | none => "") }

end TrustRegistryService

/-- Projection of the source's `FederationEntity` record to the fields the
simple registry variant reads: the identifier, the status, and the key set of
`parsed_claims.metadata`. -/
structure FederationEntity where
  entity_id : String
  status : String
  metadataKeys : List String
deriving DecidableEq

/-- The identifiers seeded by `SimpleFederationMockData` (a trust anchor, an
OpenID provider and a relying party), with their metadata key sets. -/
def simpleFederationEntities : List (String × FederationEntity) :=
  [("https://federation.example.org",
    { entity_id := "https://federation.example.org", status := "active",
      metadataKeys := ["federation_entity"] }),
   ("https://login.example.com",
    { entity_id := "https://login.example.com", status := "active",
      metadataKeys := ["federation_entity", "openid_provider"] }),
   ("https://app.example.com",
    { entity_id := "https://app.example.com", status := "active",
      metadataKeys := ["federation_entity", "openid_relying_party"] })]

namespace SimpleTrustRegistryService

/-- The simple (directory-membership) `TrustRegistryService.queryRecognition`:
recognized exactly when the entity exists in the federation data. -/
def queryRecognition (entities : List (String × FederationEntity))
    (entity_id authority_id : String) (assertion_id : Option String) :
    RecognitionResponse :=
  let entity := mapGet entities entity_id
  let recognized := entity.isSome
  { entity_id := entity_id, authority_id := authority_id, assertion_id := assertion_id
    recognized := recognized
    message :=
      (if recognized then "Entity " ++ entity_id ++ " is recognized by " ++ authority_id
       else "Entity " ++ entity_id ++ " is not recognized by " ++ authority_id) ++
      (match assertion_id with
       | some aid => " for " ++ aid
       | none => "") }

end SimpleTrustRegistryService

/-- Status enum of the persistent entity store. -/
inductive TrustEntityStatus where
  | active
  | revoked
deriving DecidableEq

/-- Registration request body (`CreateEntityDto`): `jwksUri` and `jwks` are
optional, `jwks` is free-form JSON. -/
structure CreateEntityDto where
  entityType : String
  name : String
  jwksUri : Option String
  jwks : Option Json
  endpoints : Option Json
  policy : Option Json

/-- The stored entity row the registration produces (`TrustEntity`). -/
structure TrustEntity where
  entityType : String
  name : String
  jwksUri : Option String
  jwks : Option Json
  endpoints : Json
  policy : Option Json
  status : TrustEntityStatus
  tlVersion : String

/-- Registration failures: `BadRequestException` and `ConflictException`. -/
inductive RegError where
  | badRequest : String → RegError
  | conflict : String → RegError
deriving DecidableEq

/-- JS truthiness of an optional string (`undefined` and `""` are falsy). -/
def strTruthy : Option String → Bool
  | none => false
  | some s => !s.isEmpty

namespace EntitiesService

/-- `validateRequiredFields`: at least one of `jwksUri` / `jwks` must be
truthy, and a supplied `jwks` must have a truthy `keys` that is an array. -/
def validateRequiredFields (jwksUri : Option String) (jwks : Option Json) :
    Option RegError :=
  if !strTruthy jwksUri && jwks.isNone then
    some (.badRequest "Either jwksUri or jwks must be provided")
  else
    match jwks with
    | some j =>
        if !truthyField j (bs "keys") ||
            !(match j.get (bs "keys") with
              | some (.jarr _) => true
              | _ => false) then
          some (.badRequest "JWKS must contain a valid keys array")
        else none
    | none => none

/-- `checkDuplicates`: a truthy `jwksUri` or `name` colliding with an existing
row raises a conflict. -/
def checkDuplicates (repo : List TrustEntity) (jwksUri : Option String)
    (name : Option String) : Option RegError :=
  if strTruthy jwksUri && repo.any (fun e => e.jwksUri == jwksUri) then
    some (.conflict ("Entity with JWKS URI " ++ jwksUri.getD "" ++ " already exists"))
  else if strTruthy name && repo.any (fun e => some e.name == name) then
    some (.conflict ("Entity with name " ++ name.getD "" ++ " already exists"))
  else none

/-- `register`: validate required fields, check duplicates, then create the
row with status active (the repository's `save` is modelled by returning the
created row; `nowVersion` stands for the timestamp `generateTlVersion`
reads). -/
def register (repo : List TrustEntity) (dto : CreateEntityDto) (nowVersion : String) :
    Except RegError TrustEntity :=
  match validateRequiredFields dto.jwksUri dto.jwks with
  | some e => .error e
  | none =>
      match checkDuplicates repo dto.jwksUri (some dto.name) with
      | some e => .error e
      | none =>
          .ok { entityType := dto.entityType, name := dto.name, jwksUri := dto.jwksUri,
                jwks := dto.jwks, endpoints := dto.endpoints.getD (.jobj .onil),
                policy := dto.policy, status := .active,
                tlVersion := "v" ++ nowVersion }

end EntitiesService

/-- Status values of the in-memory entity registry. -/
inductive EntityStatus where
  | active
  | suspended
  | revoked
deriving DecidableEq

/-- Row of the in-memory `EntityRegistryService` (`RegisteredEntity`). -/
structure RegisteredEntity where
  entityId : String
  metadata : List (String × String)
  status : EntityStatus
  registeredAt : Nat
  updatedAt : Nat
  trustMarks : Option (List String)
  authorityHints : Option (List String)
deriving DecidableEq

namespace EntityRegistryService

/-- `registerEntity`: unconditionally build a fresh active entry with current
timestamps and store it under the identifier (`Map.set` replaces silently).
Both `new Date()` calls are modelled by the single instant `now`. -/
def registerEntity (reg : List (String × RegisteredEntity)) (entityId : String)
    (metadata : List (String × String)) (now : Nat) :
    List (String × RegisteredEntity) × RegisteredEntity :=
  let entity : RegisteredEntity :=
    { entityId := entityId, metadata := metadata, status := .active,
      registeredAt := now, updatedAt := now, trustMarks := none, authorityHints := none }
  (mapSet reg entityId entity, entity)

end EntityRegistryService

/-- Substring containment on Lean strings (used to state the "message contains
not recognized" property). -/
def containsSubstring (needle hay : String) : Prop := needle.data <:+: hay.data

/-- The state invariant of `TrustChainService.trustedEntities`: every stored
status is trusted and carries exactly one trust chain, which is valid. -/
def InvTrusted (m : List (String × EntityTrustStatus)) : Prop :=
  ∀ p ∈ m, p.2.isTrusted = true ∧ ∃ c : TrustChain, p.2.trustChains = [c] ∧ c.isValid = true

/-- The spec's wording of Trust Mark validity (claim C5): header typ
`trust-mark+jwt` with non-empty alg and kid, payload `iss`, `sub`, `iat`, `id`
all present, and, if `exp` is present, not in the past. Stated from the spec's
words to compare against `validateTrustMark`. -/
def specTrustMarkValid (jwt : List Nat) (now : Int) : Prop :=
  ∃ h p sig, FederationJwtUtils.parseJwt jwt = some (h, p, sig) ∧
    h.get (bs "typ") = some (.jstr (bs "trust-mark+jwt")) ∧
    (∃ s, h.get (bs "alg") = some (.jstr s) ∧ s ≠ []) ∧
    (∃ s, h.get (bs "kid") = some (.jstr s) ∧ s ≠ []) ∧
    (p.get (bs "iss")).isSome = true ∧ (p.get (bs "sub")).isSome = true ∧
    (p.get (bs "iat")).isSome = true ∧ (p.get (bs "id")).isSome = true ∧
    (∀ e : Int, p.get (bs "exp") = some (.jnum e) → now ≤ e)

/-- A concrete signing key used as a witness input. -/
def sampleKey : FederationJwtUtils.JsonWebKey := { kid := bs "key-1" }

/-- A concrete, structurally complete Entity Statement claim set with a chosen
expiry, used as a witness input. -/
def sampleEntityClaims (expVal : Int) : Json :=
  .jobj (.ocons (bs "iss") (.jstr (bs "https://a.example"))
    (.ocons (bs "sub") (.jstr (bs "https://b.example"))
      (.ocons (bs "iat") (.jnum 1)
        (.ocons (bs "exp") (.jnum expVal)
          (.ocons (bs "jwks")
            (.jobj (.ocons (bs "keys") (.jarr .anil) .onil)) .onil)))))

/-- A concrete Trust Mark claim set with an optional expiry, used as a witness
input. -/
def sampleTrustMarkClaims (expVal : Option Int) : Json :=
  .jobj (.ocons (bs "iss") (.jstr (bs "https://a.example"))
    (.ocons (bs "sub") (.jstr (bs "https://b.example"))
      (.ocons (bs "iat") (.jnum 1)
        (match expVal with
         | some e => .ocons (bs "exp") (.jnum e)
             (.ocons (bs "id") (.jstr (bs "mark-1")) .onil)
         | none => .ocons (bs "id") (.jstr (bs "mark-1")) .onil))))

/-! ## Base64url round trip -/

namespace FederationJwtUtils

theorem b64c_char_facts : ∀ t < 64, b64c t ≠ 61 ∧ b64c t ≠ 46 ∧ b64dc (b64c t) = t ∧
    urlFwd (b64c t) ≠ 61 ∧ urlFwd (b64c t) ≠ 46 ∧ urlBack (urlFwd (b64c t)) = b64c t := by
  decide

theorem urlBack_61 : urlBack 61 = 61 := by decide

theorem base64UrlEncode_eq (x : List Nat) :
    base64UrlEncode x = ((b64enc x).map urlFwd).filter (fun c => decide (c ≠ 61)) := by
  show (((b64enc x).map _).map _).filter _ = _
  rw [List.map_map]
  rfl

theorem base64UrlEncode_one (a : Nat) (ha : a < 256) :
    base64UrlEncode [a] = [urlFwd (b64c (a / 4)), urlFwd (b64c (a % 4 * 16))] := by
  have h1 : a / 4 < 64 := by omega
  have h2 : a % 4 * 16 < 64 := by omega
  rw [base64UrlEncode_eq]
  simp only [b64enc, List.map_cons, List.map_nil]
  rw [List.filter_cons_of_pos (by simpa using (b64c_char_facts _ h1).2.2.2.1),
    List.filter_cons_of_pos (by simpa using (b64c_char_facts _ h2).2.2.2.1)]
  rfl

theorem base64UrlEncode_two (a b : Nat) (ha : a < 256) (hb : b < 256) :
    base64UrlEncode [a, b] = [urlFwd (b64c (a / 4)), urlFwd (b64c (a % 4 * 16 + b / 16)),
      urlFwd (b64c (b % 16 * 4))] := by
  have h1 : a / 4 < 64 := by omega
  have h2 : a % 4 * 16 + b / 16 < 64 := by omega
  have h3 : b % 16 * 4 < 64 := by omega
  rw [base64UrlEncode_eq]
  simp only [b64enc, List.map_cons, List.map_nil]
  rw [List.filter_cons_of_pos (by simpa using (b64c_char_facts _ h1).2.2.2.1),
    List.filter_cons_of_pos (by simpa using (b64c_char_facts _ h2).2.2.2.1),
    List.filter_cons_of_pos (by simpa using (b64c_char_facts _ h3).2.2.2.1)]
  rfl

theorem base64UrlEncode_cons3 (a b c : Nat) (rest : List Nat)
    (ha : a < 256) (hb : b < 256) (hc : c < 256) :
    base64UrlEncode (a :: b :: c :: rest) =
      urlFwd (b64c (a / 4)) :: urlFwd (b64c (a % 4 * 16 + b / 16)) ::
        urlFwd (b64c (b % 16 * 4 + c / 64)) :: urlFwd (b64c (c % 64)) ::
          base64UrlEncode rest := by
  have h1 : a / 4 < 64 := by omega
  have h2 : a % 4 * 16 + b / 16 < 64 := by omega
  have h3 : b % 16 * 4 + c / 64 < 64 := by omega
  have h4 : c % 64 < 64 := by omega
  rw [base64UrlEncode_eq, base64UrlEncode_eq]
  simp only [b64enc, List.map_cons]
  rw [List.filter_cons_of_pos (by simpa using (b64c_char_facts _ h1).2.2.2.1),
    List.filter_cons_of_pos (by simpa using (b64c_char_facts _ h2).2.2.2.1),
    List.filter_cons_of_pos (by simpa using (b64c_char_facts _ h3).2.2.2.1),
    List.filter_cons_of_pos (by simpa using (b64c_char_facts _ h4).2.2.2.1)]

theorem base64UrlDecode_eq (s : List Nat) :
    base64UrlDecode s =
      b64dec ((s ++ List.replicate ((4 - s.length % 4) % 4) 61).map urlBack) := by
  show b64dec _ = _
  rw [List.map_map]
  rfl

theorem b64dec_cons4 (x1 x2 x3 x4 : Nat) (z : List Nat) :
    b64dec (x1 :: x2 :: x3 :: x4 :: z) =
      (if x3 = 61 then [b64dc x1 * 4 + b64dc x2 / 16]
       else if x4 = 61 then [b64dc x1 * 4 + b64dc x2 / 16, b64dc x2 % 16 * 16 + b64dc x3 / 4]
       else (b64dc x1 * 4 + b64dc x2 / 16) :: (b64dc x2 % 16 * 16 + b64dc x3 / 4) ::
         (b64dc x3 % 4 * 64 + b64dc x4) :: b64dec z) := rfl

theorem b64url_roundtrip : ∀ x : List Nat, (∀ b ∈ x, b < 256) →
    base64UrlDecode (base64UrlEncode x) = x
  | [], _ => by decide
  | [a], h => by
      have ha : a < 256 := h a (by simp)
      have h1 : a / 4 < 64 := by omega
      have h2 : a % 4 * 16 < 64 := by omega
      rw [base64UrlEncode_one a ha, base64UrlDecode_eq]
      rw [show ((4 - ([urlFwd (b64c (a / 4)), urlFwd (b64c (a % 4 * 16))] : List Nat).length
        % 4) % 4) = 2 from rfl]
      rw [show List.replicate 2 (61 : Nat) = [61, 61] from rfl]
      simp only [List.cons_append, List.nil_append, List.map_cons, List.map_nil, urlBack_61,
        (b64c_char_facts _ h1).2.2.2.2.2, (b64c_char_facts _ h2).2.2.2.2.2]
      rw [b64dec_cons4, if_pos rfl]
      rw [(b64c_char_facts _ h1).2.2.1, (b64c_char_facts _ h2).2.2.1]
      norm_num
      omega
  | [a, b], h => by
      have ha : a < 256 := h a (by simp)
      have hb : b < 256 := h b (by simp)
      have h1 : a / 4 < 64 := by omega
      have h2 : a % 4 * 16 + b / 16 < 64 := by omega
      have h3 : b % 16 * 4 < 64 := by omega
      rw [base64UrlEncode_two a b ha hb, base64UrlDecode_eq]
      rw [show ((4 - ([urlFwd (b64c (a / 4)), urlFwd (b64c (a % 4 * 16 + b / 16)),
        urlFwd (b64c (b % 16 * 4))] : List Nat).length % 4) % 4) = 1 from rfl]
      rw [show List.replicate 1 (61 : Nat) = [61] from rfl]
      simp only [List.cons_append, List.nil_append, List.map_cons, List.map_nil, urlBack_61,
        (b64c_char_facts _ h1).2.2.2.2.2, (b64c_char_facts _ h2).2.2.2.2.2,
        (b64c_char_facts _ h3).2.2.2.2.2]
      rw [b64dec_cons4, if_neg ((b64c_char_facts _ h3).1), if_pos rfl]
      rw [(b64c_char_facts _ h1).2.2.1, (b64c_char_facts _ h2).2.2.1,
        (b64c_char_facts _ h3).2.2.1]
      norm_num
      omega
  | a :: b :: c :: rest, h => by
      have ha : a < 256 := h a (by simp)
      have hb : b < 256 := h b (by simp)
      have hc : c < 256 := h c (by simp)
      have hrest : ∀ x ∈ rest, x < 256 := fun x hx => h x (by simp [hx])
      have h1 : a / 4 < 64 := by omega
      have h2 : a % 4 * 16 + b / 16 < 64 := by omega
      have h3 : b % 16 * 4 + c / 64 < 64 := by omega
      have h4 : c % 64 < 64 := by omega
      have ih := b64url_roundtrip rest hrest
      rw [base64UrlEncode_cons3 a b c rest ha hb hc, base64UrlDecode_eq]
      rw [base64UrlDecode_eq] at ih
      rw [show ((4 - (urlFwd (b64c (a / 4)) :: urlFwd (b64c (a % 4 * 16 + b / 16)) ::
          urlFwd (b64c (b % 16 * 4 + c / 64)) :: urlFwd (b64c (c % 64)) ::
            base64UrlEncode rest).length % 4) % 4) =
          ((4 - (base64UrlEncode rest).length % 4) % 4) from by
        simp only [List.length_cons]
        omega]
      simp only [List.cons_append, List.map_cons,
        (b64c_char_facts _ h1).2.2.2.2.2, (b64c_char_facts _ h2).2.2.2.2.2,
        (b64c_char_facts _ h3).2.2.2.2.2, (b64c_char_facts _ h4).2.2.2.2.2]
      rw [b64dec_cons4]
      rw [if_neg ((b64c_char_facts _ h3).1), if_neg ((b64c_char_facts _ h4).1)]
      rw [(b64c_char_facts _ h1).2.2.1, (b64c_char_facts _ h2).2.2.1,
        (b64c_char_facts _ h3).2.2.1, (b64c_char_facts _ h4).2.2.1, ih]
      norm_num
      refine ⟨by omega, by omega, by omega⟩

theorem base64UrlEncode_ne_dot : ∀ x : List Nat, (∀ b ∈ x, b < 256) →
    ∀ c ∈ base64UrlEncode x, c ≠ 46
  | [], _ => by decide
  | [a], h => by
      have ha : a < 256 := h a (by simp)
      have h1 : a / 4 < 64 := by omega
      have h2 : a % 4 * 16 < 64 := by omega
      intro c hc
      rw [base64UrlEncode_one a ha] at hc
      simp only [List.mem_cons, List.not_mem_nil, or_false] at hc
      rcases hc with rfl | rfl
      · exact (b64c_char_facts _ h1).2.2.2.2.1
      · exact (b64c_char_facts _ h2).2.2.2.2.1
  | [a, b], h => by
      have ha : a < 256 := h a (by simp)
      have hb : b < 256 := h b (by simp)
      have h1 : a / 4 < 64 := by omega
      have h2 : a % 4 * 16 + b / 16 < 64 := by omega
      have h3 : b % 16 * 4 < 64 := by omega
      intro c hc
      rw [base64UrlEncode_two a b ha hb] at hc
      simp only [List.mem_cons, List.not_mem_nil, or_false] at hc
      rcases hc with rfl | rfl | rfl
      · exact (b64c_char_facts _ h1).2.2.2.2.1
      · exact (b64c_char_facts _ h2).2.2.2.2.1
      · exact (b64c_char_facts _ h3).2.2.2.2.1
  | a :: b :: c' :: rest, h => by
      have ha : a < 256 := h a (by simp)
      have hb : b < 256 := h b (by simp)
      have hc' : c' < 256 := h c' (by simp)
      have hrest : ∀ x ∈ rest, x < 256 := fun x hx => h x (by simp [hx])
      have h1 : a / 4 < 64 := by omega
      have h2 : a % 4 * 16 + b / 16 < 64 := by omega
      have h3 : b % 16 * 4 + c' / 64 < 64 := by omega
      have h4 : c' % 64 < 64 := by omega
      intro c hc
      rw [base64UrlEncode_cons3 a b c' rest ha hb hc'] at hc
      simp only [List.mem_cons] at hc
      rcases hc with rfl | rfl | rfl | rfl | hc
      · exact (b64c_char_facts _ h1).2.2.2.2.1
      · exact (b64c_char_facts _ h2).2.2.2.2.1
      · exact (b64c_char_facts _ h3).2.2.2.2.1
      · exact (b64c_char_facts _ h4).2.2.2.2.1
      · exact base64UrlEncode_ne_dot rest hrest c hc

end FederationJwtUtils

/-! ## Decimal printing and scanning -/

theorem natBytesAux_unfold (n : Nat) :
    natBytesAux n = if n = 0 then [] else (48 + n % 10) :: natBytesAux (n / 10) := by
  rw [natBytesAux]

theorem natBytesAux_digits : ∀ n : Nat, ∀ b ∈ natBytesAux n, 48 ≤ b ∧ b ≤ 57 := by
  intro n
  induction n using Nat.strong_induction_on with
  | _ n ih =>
    intro b hb
    rw [natBytesAux_unfold] at hb
    by_cases hn : n = 0
    · rw [if_pos hn] at hb
      simp at hb
    · rw [if_neg hn] at hb
      rcases List.mem_cons.mp hb with rfl | hb2
      · omega
      · exact ih (n / 10) (Nat.div_lt_self (by omega) (by omega)) b hb2

theorem natBytes_digits (n : Nat) : ∀ b ∈ natBytes n, 48 ≤ b ∧ b ≤ 57 := by
  intro b hb
  unfold natBytes at hb
  split at hb
  · simp only [List.mem_singleton] at hb
    omega
  · exact natBytesAux_digits n b (List.mem_reverse.mp hb)

theorem natBytes_ne_nil (n : Nat) : natBytes n ≠ [] := by
  unfold natBytes
  split
  · exact List.cons_ne_nil _ _
  · rw [natBytesAux_unfold, if_neg (by assumption)]
    simp

theorem digitsVal_aux : ∀ n : Nat, n ≠ 0 → ∀ acc : Nat,
    List.foldl (fun a d => a * 10 + (d - 48)) acc (natBytesAux n).reverse =
      acc * 10 ^ (natBytesAux n).length + n := by
  intro n
  induction n using Nat.strong_induction_on with
  | _ n ih =>
    intro hn acc
    rw [natBytesAux_unfold, if_neg hn]
    by_cases h10 : n / 10 = 0
    · rw [show natBytesAux (n / 10) = [] from by rw [natBytesAux_unfold, if_pos h10]]
      simp only [List.reverse_cons, List.reverse_nil, List.nil_append, List.foldl_cons,
        List.foldl_nil, List.length_cons, List.length_nil, Nat.zero_add, pow_one]
      have : n < 10 := by omega
      omega
    · rw [List.reverse_cons, List.foldl_append, ih (n / 10)
        (Nat.div_lt_self (by omega) (by omega)) h10 acc]
      simp only [List.foldl_cons, List.foldl_nil, List.length_cons]
      have e : acc * 10 ^ ((natBytesAux (n / 10)).length + 1) =
          acc * 10 ^ (natBytesAux (n / 10)).length * 10 := by ring
      rw [e]
      generalize acc * 10 ^ (natBytesAux (n / 10)).length = A
      omega

theorem digitsVal_natBytes (n : Nat) :
    FederationJwtUtils.digitsVal (natBytes n) = n := by
  unfold natBytes FederationJwtUtils.digitsVal
  split
  · simp only [List.foldl_cons, List.foldl_nil]
    omega
  · rw [digitsVal_aux n (by assumption) 0]
    simp

theorem takeWhile_app (p : Nat → Bool) : ∀ l₁ l₂ : List Nat, (∀ b ∈ l₁, p b = true) →
    (l₂ = [] ∨ ∃ d t, l₂ = d :: t ∧ p d = false) →
    (l₁ ++ l₂).takeWhile p = l₁ := by
  intro l₁
  induction l₁ with
  | nil =>
      intro l₂ _ h2
      rcases h2 with rfl | ⟨d, t, rfl, pd⟩
      · simp
      · simp [List.takeWhile_cons, pd]
  | cons b t ihh =>
      intro l₂ h1 h2
      simp only [List.cons_append, List.takeWhile_cons, h1 b (by simp), List.cons.injEq,
        true_and, if_true]
      exact ihh l₂ (fun x hx => h1 x (by simp [hx])) h2

theorem escBytes_cons (b : Nat) (s : List Nat) :
    escBytes (b :: s) =
      (if b = 34 then [92, 34] else if b = 92 then [92, 92] else [b]) ++ escBytes s := rfl

theorem FederationJwtUtils.parseNatNum_rt (n : Nat) (rest : List Nat)
    (hr : FederationJwtUtils.nonNumTail rest) :
    FederationJwtUtils.parseNatNum (natBytes n ++ rest) = some (n, rest) := by
  unfold FederationJwtUtils.parseNatNum
  have ht : (natBytes n ++ rest).takeWhile FederationJwtUtils.isDigitB = natBytes n := by
    refine takeWhile_app _ _ _ (fun b hb => ?_) ?_
    · have := natBytes_digits n b hb
      simp only [FederationJwtUtils.isDigitB, Bool.and_eq_true, decide_eq_true_eq]
      omega
    · rcases hr with rfl | ⟨d, t, rfl, pd⟩
      · exact Or.inl rfl
      · exact Or.inr ⟨d, t, rfl, pd⟩
  rw [ht]
  rw [if_neg (by simpa [List.isEmpty_iff] using natBytes_ne_nil n)]
  rw [digitsVal_natBytes, List.drop_left]

theorem FederationJwtUtils.parseStrBody_cons (b : Nat) (r : List Nat) :
    FederationJwtUtils.parseStrBody (b :: r) =
      (if b = 34 then some ([], r)
       else if b = 92 then
         match r with
         | 34 :: r2 => (FederationJwtUtils.parseStrBody r2).map (fun p => (34 :: p.1, p.2))
         | 92 :: r2 => (FederationJwtUtils.parseStrBody r2).map (fun p => (92 :: p.1, p.2))
         | _ => none
       else (FederationJwtUtils.parseStrBody r).map (fun p => (b :: p.1, p.2))) := by
  rw [FederationJwtUtils.parseStrBody.eq_def]

theorem FederationJwtUtils.parseStrBody_rt : ∀ s rest : List Nat,
    FederationJwtUtils.parseStrBody (escBytes s ++ (34 :: rest)) = some (s, rest)
  | [], rest => by
      show FederationJwtUtils.parseStrBody (34 :: rest) = some ([], rest)
      rw [FederationJwtUtils.parseStrBody_cons, if_pos rfl]
  | b :: s', rest => by
      by_cases h34 : b = 34
      · subst h34
        rw [escBytes_cons, if_pos rfl]
        simp only [List.cons_append, List.nil_append]
        rw [FederationJwtUtils.parseStrBody_cons, if_neg (by decide), if_pos rfl]
        show (FederationJwtUtils.parseStrBody (escBytes s' ++ (34 :: rest))).map
          (fun p => (34 :: p.1, p.2)) = some (34 :: s', rest)
        rw [FederationJwtUtils.parseStrBody_rt s' rest]
        rfl
      · by_cases h92 : b = 92
        · subst h92
          rw [escBytes_cons, if_neg (by decide), if_pos rfl]
          simp only [List.cons_append, List.nil_append]
          rw [FederationJwtUtils.parseStrBody_cons, if_neg (by decide), if_pos rfl]
          show (FederationJwtUtils.parseStrBody (escBytes s' ++ (34 :: rest))).map
            (fun p => (92 :: p.1, p.2)) = some (92 :: s', rest)
          rw [FederationJwtUtils.parseStrBody_rt s' rest]
          rfl
        · rw [escBytes_cons, if_neg h34, if_neg h92]
          simp only [List.cons_append, List.nil_append]
          rw [FederationJwtUtils.parseStrBody_cons, if_neg h34, if_neg h92,
            FederationJwtUtils.parseStrBody_rt s' rest]
          rfl

/-! ## Dot splitting -/

theorem splitDot_no_dot : ∀ l : List Nat, (∀ c ∈ l, c ≠ 46) → splitDot l = [l]
  | [], _ => rfl
  | b :: r, h => by
      have hb : b ≠ 46 := h b (by simp)
      rw [splitDot, if_neg hb, splitDot_no_dot r (fun c hc => h c (by simp [hc]))]

theorem splitDot_append : ∀ a r : List Nat, (∀ c ∈ a, c ≠ 46) →
    splitDot (a ++ 46 :: r) = a :: splitDot r
  | [], r, _ => by
      simp [splitDot]
  | b :: a', r, h => by
      have hb : b ≠ 46 := h b (by simp)
      have ih := splitDot_append a' r (fun c hc => h c (by simp [hc]))
      simp only [List.cons_append]
      rw [splitDot, if_neg hb, ih]

/-! ## Parser-printer round trip -/

theorem psize_pos : ∀ j : Json, 1 ≤ Json.psize j := by
  intro j
  cases j with
  | jnull => simp [Json.psize]
  | jbool b => simp [Json.psize]
  | jnum n => simp [Json.psize]
  | jstr s => simp [Json.psize]
  | jarr xs => cases xs <;> simp [Json.psize] <;> omega
  | jobj fs => cases fs <;> simp [Json.psize] <;> omega

theorem natBytes_head : ∀ n : Nat, ∃ d t, natBytes n = d :: t ∧ 48 ≤ d ∧ d ≤ 57 := by
  intro n
  cases h : natBytes n with
  | nil => exact absurd h (natBytes_ne_nil n)
  | cons d t =>
      have := natBytes_digits n d (by rw [h]; simp)
      exact ⟨d, t, rfl, this.1, this.2⟩

theorem intBytes_neg (n : Int) (h : n < 0) : intBytes n = 45 :: natBytes (-n).toNat := by
  unfold intBytes
  rw [if_pos h]

theorem intBytes_nonneg (n : Int) (h : ¬n < 0) : intBytes n = natBytes n.toNat := by
  unfold intBytes
  rw [if_neg h]

theorem stringify_head_spec : ∀ j : Json, ∃ b0 t0, Json.stringify j = b0 :: t0 ∧ b0 ≠ 93 := by
  intro j
  cases j with
  | jnull => exact ⟨110, _, rfl, by decide⟩
  | jbool b =>
      cases b
      · exact ⟨102, _, rfl, by decide⟩
      · exact ⟨116, _, rfl, by decide⟩
  | jnum n =>
      by_cases hn : n < 0
      · exact ⟨45, natBytes (-n).toNat, by simp [Json.stringify, intBytes_neg n hn],
          by decide⟩
      · obtain ⟨d, t, hd, hlo, hhi⟩ := natBytes_head n.toNat
        exact ⟨d, t, by simp [Json.stringify, intBytes_nonneg n hn, hd], by omega⟩
  | jstr s => exact ⟨34, _, rfl, by decide⟩
  | jarr xs =>
      cases xs
      · exact ⟨91, _, rfl, by decide⟩
      · exact ⟨91, _, rfl, by decide⟩
  | jobj fs =>
      cases fs
      · exact ⟨123, _, rfl, by decide⟩
      · exact ⟨123, _, rfl, by decide⟩

namespace FederationJwtUtils

theorem parseVal_cons (f b : Nat) (r : List Nat) :
    parseVal (f + 1) (b :: r) =
      (if b = 110 then
        match r with
        | 117 :: 108 :: 108 :: r2 => some (Json.jnull, r2)
        | _ => none
      else if b = 116 then
        match r with
        | 114 :: 117 :: 101 :: r2 => some (Json.jbool true, r2)
        | _ => none
      else if b = 102 then
        match r with
        | 97 :: 108 :: 115 :: 101 :: r2 => some (Json.jbool false, r2)
        | _ => none
      else if b = 34 then (parseStrBody r).map (fun p => (Json.jstr p.1, p.2))
      else if b = 91 then
        if r.headD 0 = 93 then some (Json.jarr .anil, r.tail) else parseElems f r
      else if b = 123 then
        if r.headD 0 = 125 then some (Json.jobj .onil, r.tail) else parseFields f r
      else if b = 45 then (parseNatNum r).map (fun p => (Json.jnum (-(p.1 : Int)), p.2))
      else if isDigitB b then
        (parseNatNum (b :: r)).map (fun p => (Json.jnum (p.1 : Int), p.2))
      else none) := rfl

theorem parseElems_succ (f : Nat) (input : List Nat) :
    parseElems (f + 1) input =
      (match parseVal f input with
       | some (v, 44 :: r) =>
           match parseElems f r with
           | some (.jarr vs, r2) => some (Json.jarr (.acons v vs), r2)
           | _ => none
       | some (v, 93 :: r) => some (Json.jarr (.acons v .anil), r)
       | _ => none) := rfl

theorem parseFields_succ (f : Nat) (input : List Nat) :
    parseFields (f + 1) input =
      (match input with
       | 34 :: r =>
           match parseStrBody r with
           | some (k, 58 :: r2) =>
               match parseVal f r2 with
               | some (v, 44 :: r3) =>
                   match parseFields f r3 with
                   | some (.jobj fs, r4) => some (Json.jobj (.ocons k v fs), r4)
                   | _ => none
               | some (v, 125 :: r3) => some (Json.jobj (.ocons k v .onil), r3)
               | _ => none
           | _ => none
       | _ => none) := rfl

theorem elemsTail_nonNum (vs : JArr) (rest : List Nat) :
    nonNumTail (JArr.stringifyTail vs ++ (93 :: rest)) := by
  cases vs with
  | anil => exact Or.inr ⟨93, rest, rfl, by decide⟩
  | acons v vs' =>
      refine Or.inr ⟨44, Json.stringify v ++ (JArr.stringifyTail vs' ++ (93 :: rest)),
        ?_, by decide⟩
      simp [JArr.stringifyTail]

theorem fieldsTail_nonNum (fs : JObj) (rest : List Nat) :
    nonNumTail (JObj.stringifyTail fs ++ (125 :: rest)) := by
  cases fs with
  | onil => exact Or.inr ⟨125, rest, rfl, by decide⟩
  | ocons k v fs' =>
      refine Or.inr ⟨44, 34 :: (escBytes k ++ (34 :: (58 :: (Json.stringify v ++
        (JObj.stringifyTail fs' ++ (125 :: rest)))))), ?_, by decide⟩
      simp [JObj.stringifyTail]

mutual
theorem parseVal_print : ∀ (j : Json) (rest : List Nat) (fuel : Nat),
    Json.psize j ≤ fuel → nonNumTail rest →
    parseVal fuel (Json.stringify j ++ rest) = some (j, rest)
  | .jnull, rest, fuel, hf, hr => by
      obtain ⟨f, rfl⟩ : ∃ f, fuel = f + 1 := ⟨fuel - 1, by have := psize_pos .jnull; omega⟩
      show parseVal (f + 1) (110 :: 117 :: 108 :: 108 :: rest) = _
      rw [parseVal_cons, if_pos rfl]
  | .jbool false, rest, fuel, hf, hr => by
      obtain ⟨f, rfl⟩ : ∃ f, fuel = f + 1 :=
        ⟨fuel - 1, by have := psize_pos (.jbool false); omega⟩
      show parseVal (f + 1) (102 :: 97 :: 108 :: 115 :: 101 :: rest) = _
      rw [parseVal_cons, if_neg (by decide), if_neg (by decide), if_pos rfl]
  | .jbool true, rest, fuel, hf, hr => by
      obtain ⟨f, rfl⟩ : ∃ f, fuel = f + 1 :=
        ⟨fuel - 1, by have := psize_pos (.jbool true); omega⟩
      show parseVal (f + 1) (116 :: 114 :: 117 :: 101 :: rest) = _
      rw [parseVal_cons, if_neg (by decide), if_pos rfl]
  | .jstr s, rest, fuel, hf, hr => by
      obtain ⟨f, rfl⟩ : ∃ f, fuel = f + 1 :=
        ⟨fuel - 1, by have := psize_pos (.jstr s); omega⟩
      have e : Json.stringify (Json.jstr s) ++ rest = 34 :: (escBytes s ++ (34 :: rest)) := by
        simp [Json.stringify]
      rw [e, parseVal_cons, if_neg (by decide), if_neg (by decide), if_neg (by decide),
        if_pos rfl, parseStrBody_rt s rest]
      rfl
  | .jnum n, rest, fuel, hf, hr => by
      obtain ⟨f, rfl⟩ : ∃ f, fuel = f + 1 :=
        ⟨fuel - 1, by have := psize_pos (.jnum n); omega⟩
      by_cases hn : n < 0
      · have e : Json.stringify (Json.jnum n) ++ rest =
            45 :: (natBytes (-n).toNat ++ rest) := by
          simp [Json.stringify, intBytes_neg n hn]
        rw [e, parseVal_cons, if_neg (by decide), if_neg (by decide), if_neg (by decide),
          if_neg (by decide), if_neg (by decide), if_neg (by decide), if_pos rfl,
          parseNatNum_rt _ rest hr]
        have et : (((-n).toNat : Nat) : Int) = -n := Int.toNat_of_nonneg (by omega)
        simp [et]
      · obtain ⟨d, t, hd, hlo, hhi⟩ := natBytes_head n.toNat
        have e : Json.stringify (Json.jnum n) ++ rest = d :: (t ++ rest) := by
          simp [Json.stringify, intBytes_nonneg n hn, hd]
        rw [e, parseVal_cons, if_neg (by omega), if_neg (by omega), if_neg (by omega),
          if_neg (by omega), if_neg (by omega), if_neg (by omega), if_neg (by omega),
          if_pos (by simp only [isDigitB, Bool.and_eq_true, decide_eq_true_eq]; omega)]
        rw [show d :: (t ++ rest) = natBytes n.toNat ++ rest from by rw [hd]; simp,
          parseNatNum_rt _ rest hr]
        have et : ((n.toNat : Nat) : Int) = n := Int.toNat_of_nonneg (by omega)
        simp [et]
  | .jarr .anil, rest, fuel, hf, hr => by
      obtain ⟨f, rfl⟩ : ∃ f, fuel = f + 1 :=
        ⟨fuel - 1, by have := psize_pos (.jarr .anil); omega⟩
      show parseVal (f + 1) (91 :: 93 :: rest) = _
      rw [parseVal_cons, if_neg (by decide), if_neg (by decide), if_neg (by decide),
        if_neg (by decide), if_pos rfl,
        if_pos (show (93 :: rest).headD 0 = 93 from rfl)]
      rfl
  | .jarr (.acons v vs), rest, fuel, hf, hr => by
      obtain ⟨f, rfl⟩ : ∃ f, fuel = f + 1 :=
        ⟨fuel - 1, by have := psize_pos (.jarr (.acons v vs)); omega⟩
      have e : Json.stringify (Json.jarr (JArr.acons v vs)) ++ rest =
          91 :: (Json.stringify v ++ (JArr.stringifyTail vs ++ (93 :: rest))) := by
        simp [Json.stringify]
      rw [e, parseVal_cons, if_neg (by decide), if_neg (by decide), if_neg (by decide),
        if_neg (by decide), if_pos rfl]
      obtain ⟨b0, t0, he, hb93⟩ := stringify_head_spec v
      rw [if_neg (by rw [he]; simpa using hb93)]
      have hfa : Json.psize (Json.jarr (JArr.acons v vs)) ≤ f + 1 := hf
      simp only [Json.psize] at hfa
      exact parseElems_print v vs rest f (by omega) hr
  | .jobj .onil, rest, fuel, hf, hr => by
      obtain ⟨f, rfl⟩ : ∃ f, fuel = f + 1 :=
        ⟨fuel - 1, by have := psize_pos (.jobj .onil); omega⟩
      show parseVal (f + 1) (123 :: 125 :: rest) = _
      rw [parseVal_cons, if_neg (by decide), if_neg (by decide), if_neg (by decide),
        if_neg (by decide), if_neg (by decide), if_pos rfl,
        if_pos (show (125 :: rest).headD 0 = 125 from rfl)]
      rfl
  | .jobj (.ocons k v fs'), rest, fuel, hf, hr => by
      obtain ⟨f, rfl⟩ : ∃ f, fuel = f + 1 :=
        ⟨fuel - 1, by have := psize_pos (.jobj (.ocons k v fs')); omega⟩
      have e : Json.stringify (Json.jobj (JObj.ocons k v fs')) ++ rest =
          123 :: (34 :: (escBytes k ++ (34 :: (58 :: (Json.stringify v ++
            (JObj.stringifyTail fs' ++ (125 :: rest))))))) := by
        simp [Json.stringify]
      rw [e, parseVal_cons, if_neg (by decide), if_neg (by decide), if_neg (by decide),
        if_neg (by decide), if_neg (by decide), if_pos rfl, if_neg (by simp)]
      have hfa : Json.psize (Json.jobj (JObj.ocons k v fs')) ≤ f + 1 := hf
      simp only [Json.psize] at hfa
      exact parseFields_print k v fs' rest f (by omega) hr
termination_by j _ _ _ _ => sizeOf j
decreasing_by all_goals (simp_wf <;> omega)

theorem parseElems_print : ∀ (v : Json) (vs : JArr) (rest : List Nat) (fuel : Nat),
    1 + Json.psize v + JArr.psizeTail vs ≤ fuel → nonNumTail rest →
    parseElems fuel (Json.stringify v ++ (JArr.stringifyTail vs ++ (93 :: rest))) =
      some (Json.jarr (JArr.acons v vs), rest)
  | v, .anil, rest, fuel, hf, hr => by
      obtain ⟨f, rfl⟩ : ∃ f, fuel = f + 1 := ⟨fuel - 1, by omega⟩
      rw [parseElems_succ,
        parseVal_print v (JArr.stringifyTail .anil ++ (93 :: rest)) f (by omega)
          (elemsTail_nonNum .anil rest)]
      rfl
  | v, .acons v' vs', rest, fuel, hf, hr => by
      obtain ⟨f, rfl⟩ : ∃ f, fuel = f + 1 := ⟨fuel - 1, by omega⟩
      rw [parseElems_succ,
        parseVal_print v (JArr.stringifyTail (.acons v' vs') ++ (93 :: rest)) f (by omega)
          (elemsTail_nonNum (.acons v' vs') rest)]
      have e : JArr.stringifyTail (JArr.acons v' vs') ++ (93 :: rest) =
          44 :: (Json.stringify v' ++ (JArr.stringifyTail vs' ++ (93 :: rest))) := by
        simp [JArr.stringifyTail]
      rw [e]
      have hfa : 1 + Json.psize v + JArr.psizeTail (JArr.acons v' vs') ≤ f + 1 := hf
      simp only [JArr.psizeTail] at hfa
      have hv := psize_pos v
      have ihe := parseElems_print v' vs' rest f (by omega) hr
      simp only [ihe]
termination_by v vs _ _ _ _ => 1 + sizeOf v + sizeOf vs
decreasing_by all_goals (simp_wf <;> omega)

theorem parseFields_print : ∀ (k : List Nat) (v : Json) (fs : JObj) (rest : List Nat)
    (fuel : Nat), 1 + Json.psize v + JObj.psizeTail fs ≤ fuel → nonNumTail rest →
    parseFields fuel (34 :: (escBytes k ++ (34 :: (58 :: (Json.stringify v ++
        (JObj.stringifyTail fs ++ (125 :: rest))))))) =
      some (Json.jobj (JObj.ocons k v fs), rest)
  | k, v, .onil, rest, fuel, hf, hr => by
      obtain ⟨f, rfl⟩ : ∃ f, fuel = f + 1 := ⟨fuel - 1, by omega⟩
      rw [parseFields_succ]
      have h1 : parseStrBody (escBytes k ++ (34 :: (58 :: (Json.stringify v ++
          (JObj.stringifyTail .onil ++ (125 :: rest)))))) =
          some (k, 58 :: (Json.stringify v ++ (JObj.stringifyTail .onil ++ (125 :: rest)))) :=
        parseStrBody_rt k _
      have h2 := parseVal_print v (JObj.stringifyTail .onil ++ (125 :: rest)) f (by omega)
        (fieldsTail_nonNum .onil rest)
      simp only [h1, h2]
      rfl
  | k, v, .ocons k' v' fs', rest, fuel, hf, hr => by
      obtain ⟨f, rfl⟩ : ∃ f, fuel = f + 1 := ⟨fuel - 1, by omega⟩
      rw [parseFields_succ]
      have h1 : parseStrBody (escBytes k ++ (34 :: (58 :: (Json.stringify v ++
          (JObj.stringifyTail (.ocons k' v' fs') ++ (125 :: rest)))))) =
          some (k, 58 :: (Json.stringify v ++
            (JObj.stringifyTail (.ocons k' v' fs') ++ (125 :: rest)))) :=
        parseStrBody_rt k _
      have h2 := parseVal_print v (JObj.stringifyTail (.ocons k' v' fs') ++ (125 :: rest)) f
        (by omega) (fieldsTail_nonNum (.ocons k' v' fs') rest)
      simp only [h1, h2]
      have e : JObj.stringifyTail (JObj.ocons k' v' fs') ++ (125 :: rest) =
          44 :: (34 :: (escBytes k' ++ (34 :: (58 :: (Json.stringify v' ++
            (JObj.stringifyTail fs' ++ (125 :: rest))))))) := by
        simp [JObj.stringifyTail]
      rw [e]
      have hfa : 1 + Json.psize v + JObj.psizeTail (JObj.ocons k' v' fs') ≤ f + 1 := hf
      simp only [JObj.psizeTail] at hfa
      have hv := psize_pos v
      have ihe := parseFields_print k' v' fs' rest f (by omega) hr
      simp only [ihe]
termination_by k v fs _ _ _ _ => 1 + sizeOf v + sizeOf fs
decreasing_by all_goals (simp_wf <;> omega)
end

theorem intBytes_ne_nil (n : Int) : intBytes n ≠ [] := by
  unfold intBytes
  split
  · simp
  · exact natBytes_ne_nil _

mutual
theorem psize_le_len : ∀ j : Json, Json.psize j ≤ (Json.stringify j).length
  | .jnull => by simp [Json.psize, Json.stringify]
  | .jbool true => by simp [Json.psize, Json.stringify]
  | .jbool false => by simp [Json.psize, Json.stringify]
  | .jnum n => by
      simp only [Json.psize, Json.stringify]
      have h := intBytes_ne_nil n
      cases he : intBytes n with
      | nil => exact absurd he h
      | cons d t => simp [he]
  | .jstr s => by simp [Json.psize, Json.stringify]
  | .jarr .anil => by simp [Json.psize, Json.stringify]
  | .jarr (.acons v vs) => by
      have h1 := psize_le_len v
      have h2 := psizeTailA_le_len vs
      simp only [Json.psize, Json.stringify, List.length_cons, List.length_append]
      omega
  | .jobj .onil => by simp [Json.psize, Json.stringify]
  | .jobj (.ocons k v fs) => by
      have h1 := psize_le_len v
      have h2 := psizeTailO_le_len fs
      simp only [Json.psize, Json.stringify, List.length_cons, List.length_append]
      omega
theorem psizeTailA_le_len : ∀ vs : JArr, JArr.psizeTail vs ≤ (JArr.stringifyTail vs).length
  | .anil => by simp [JArr.psizeTail, JArr.stringifyTail]
  | .acons v vs => by
      have h1 := psize_le_len v
      have h2 := psizeTailA_le_len vs
      simp only [JArr.psizeTail, JArr.stringifyTail, List.length_cons, List.length_append]
      omega
theorem psizeTailO_le_len : ∀ fs : JObj, JObj.psizeTail fs ≤ (JObj.stringifyTail fs).length
  | .onil => by simp [JObj.psizeTail, JObj.stringifyTail]
  | .ocons k v fs => by
      have h1 := psize_le_len v
      have h2 := psizeTailO_le_len fs
      simp only [JObj.psizeTail, JObj.stringifyTail, List.length_cons, List.length_append]
      omega
end

theorem jsonParse_stringify (j : Json) : jsonParse (Json.stringify j) = some j := by
  unfold jsonParse
  have h := parseVal_print j [] ((Json.stringify j).length + 1)
    (le_trans (psize_le_len j) (by omega)) (Or.inl rfl)
  rw [List.append_nil] at h
  rw [h]

theorem escBytes_lt (s : List Nat) (h : ∀ b ∈ s, b < 256) : ∀ b ∈ escBytes s, b < 256 := by
  induction s with
  | nil => simp [escBytes]
  | cons b0 t ih =>
      intro b hb
      rw [escBytes_cons] at hb
      rcases List.mem_append.mp hb with h1 | h2
      · by_cases e34 : b0 = 34
        · rw [if_pos e34] at h1
          simp only [List.mem_cons, List.not_mem_nil, or_false] at h1
          rcases h1 with rfl | rfl <;> omega
        · by_cases e92 : b0 = 92
          · rw [if_neg e34, if_pos e92] at h1
            simp only [List.mem_cons, List.not_mem_nil, or_false] at h1
            rcases h1 with rfl | rfl <;> omega
          · rw [if_neg e34, if_neg e92] at h1
            simp only [List.mem_singleton] at h1
            exact h1 ▸ h b0 (by simp)
      · exact ih (fun x hx => h x (by simp [hx])) b h2

theorem intBytes_lt (n : Int) : ∀ b ∈ intBytes n, b < 256 := by
  intro b hb
  unfold intBytes at hb
  split at hb
  · rcases List.mem_cons.mp hb with rfl | hb2
    · omega
    · have := natBytes_digits _ b hb2
      omega
  · have := natBytes_digits _ b hb
    omega

mutual
theorem stringify_lt : ∀ j : Json, Json.wf j = true → ∀ b ∈ Json.stringify j, b < 256
  | .jnull, _ => by
      intro b hb
      simp only [Json.stringify, List.mem_cons, List.not_mem_nil, or_false] at hb
      omega
  | .jbool true, _ => by
      intro b hb
      simp only [Json.stringify, List.mem_cons, List.not_mem_nil, or_false] at hb
      omega
  | .jbool false, _ => by
      intro b hb
      simp only [Json.stringify, List.mem_cons, List.not_mem_nil, or_false] at hb
      omega
  | .jnum n, _ => intBytes_lt n
  | .jstr s, hw => by
      have hs : ∀ x ∈ s, x < 256 := by
        simpa [Json.wf, List.all_eq_true] using hw
      intro b hb
      simp only [Json.stringify, List.mem_cons, List.mem_append, List.mem_singleton,
        List.not_mem_nil, or_false] at hb
      casesm* _ ∨ _
      all_goals first
        | omega
        | exact escBytes_lt s hs _ (by assumption)
  | .jarr .anil, _ => by
      intro b hb
      simp only [Json.stringify, List.mem_cons, List.not_mem_nil, or_false] at hb
      omega
  | .jarr (.acons v vs), hw => by
      have hw2 : Json.wf v = true ∧ JArr.wfTail vs = true := by
        simpa [Json.wf, JArr.wfTail] using hw
      intro b hb
      simp only [Json.stringify, List.mem_cons, List.mem_append, List.mem_singleton,
        List.not_mem_nil, or_false] at hb
      casesm* _ ∨ _
      all_goals first
        | omega
        | exact stringify_lt v hw2.1 _ (by assumption)
        | exact stringifyTailA_lt vs hw2.2 _ (by assumption)
  | .jobj .onil, _ => by
      intro b hb
      simp only [Json.stringify, List.mem_cons, List.not_mem_nil, or_false] at hb
      omega
  | .jobj (.ocons k v fs), hw => by
      have hw2 : ((∀ x ∈ k, x < 256) ∧ Json.wf v = true) ∧ JObj.wfTail fs = true := by
        simpa [Json.wf, JObj.wfTail, List.all_eq_true, and_assoc] using hw
      intro b hb
      simp only [Json.stringify, List.mem_cons, List.mem_append, List.mem_singleton,
        List.not_mem_nil, or_false] at hb
      casesm* _ ∨ _
      all_goals first
        | omega
        | exact escBytes_lt k hw2.1.1 _ (by assumption)
        | exact stringify_lt v hw2.1.2 _ (by assumption)
        | exact stringifyTailO_lt fs hw2.2 _ (by assumption)
theorem stringifyTailA_lt : ∀ vs : JArr, JArr.wfTail vs = true →
    ∀ b ∈ JArr.stringifyTail vs, b < 256
  | .anil, _ => by simp [JArr.stringifyTail]
  | .acons v vs, hw => by
      have hw2 : Json.wf v = true ∧ JArr.wfTail vs = true := by
        simpa [JArr.wfTail] using hw
      intro b hb
      simp only [JArr.stringifyTail, List.mem_cons, List.mem_append, List.mem_singleton,
        List.not_mem_nil, or_false] at hb
      casesm* _ ∨ _
      all_goals first
        | omega
        | exact stringify_lt v hw2.1 _ (by assumption)
        | exact stringifyTailA_lt vs hw2.2 _ (by assumption)
theorem stringifyTailO_lt : ∀ fs : JObj, JObj.wfTail fs = true →
    ∀ b ∈ JObj.stringifyTail fs, b < 256
  | .onil, _ => by simp [JObj.stringifyTail]
  | .ocons k v fs, hw => by
      have hw2 : ((∀ x ∈ k, x < 256) ∧ Json.wf v = true) ∧ JObj.wfTail fs = true := by
        simpa [JObj.wfTail, List.all_eq_true, and_assoc] using hw
      intro b hb
      simp only [JObj.stringifyTail, List.mem_cons, List.mem_append, List.mem_singleton,
        List.not_mem_nil, or_false] at hb
      casesm* _ ∨ _
      all_goals first
        | omega
        | exact escBytes_lt k hw2.1.1 _ (by assumption)
        | exact stringify_lt v hw2.1.2 _ (by assumption)
        | exact stringifyTailO_lt fs hw2.2 _ (by assumption)
end

theorem sha256hex_lt (input : List Nat) : ∀ b ∈ sha256hex input, b < 256 := by
  intro b hb
  simp only [sha256hex, List.mem_map] at hb
  obtain ⟨i, _, rfl⟩ := hb
  unfold hexDigitByte
  split <;> omega

theorem esHeader_wf (kid : List Nat) (hk : ∀ b ∈ kid, b < 256) :
    Json.wf (esHeader kid) = true := by
  simp only [esHeader, Json.wf, JObj.wfTail, Bool.and_eq_true, List.all_eq_true,
    decide_eq_true_eq]
  exact ⟨⟨by decide, by decide⟩, ⟨by decide, by decide⟩, ⟨by decide, hk⟩, trivial⟩

theorem tmHeader_wf (kid : List Nat) (hk : ∀ b ∈ kid, b < 256) :
    Json.wf (tmHeader kid) = true := by
  simp only [tmHeader, Json.wf, JObj.wfTail, Bool.and_eq_true, List.all_eq_true,
    decide_eq_true_eq]
  exact ⟨⟨by decide, by decide⟩, ⟨by decide, by decide⟩, ⟨by decide, hk⟩, trivial⟩

theorem createMockSignature_eq (h p kid : List Nat) :
    createMockSignature h p kid = base64UrlEncode (sha256hex (h ++ 46 :: (p ++ kid))) := rfl

theorem parseJwt_createEntityStatement (claims : Json) (key : JsonWebKey)
    (hw : Json.wf claims = true) (hk : ∀ b ∈ key.kid, b < 256) :
    parseJwt (createEntityStatement claims key) =
      some (esHeader key.kid, claims,
        createMockSignature (base64UrlEncode (Json.stringify (esHeader key.kid)))
          (base64UrlEncode (Json.stringify claims)) key.kid) := by
  have hhb : ∀ b ∈ Json.stringify (esHeader key.kid), b < 256 :=
    stringify_lt _ (esHeader_wf key.kid hk)
  have hcb : ∀ b ∈ Json.stringify claims, b < 256 := stringify_lt _ hw
  have hsig : ∀ c ∈ createMockSignature (base64UrlEncode (Json.stringify (esHeader key.kid)))
      (base64UrlEncode (Json.stringify claims)) key.kid, c ≠ 46 := by
    rw [createMockSignature_eq]
    exact base64UrlEncode_ne_dot _ (sha256hex_lt _)
  have hs : splitDot (createEntityStatement claims key) =
      [base64UrlEncode (Json.stringify (esHeader key.kid)),
        base64UrlEncode (Json.stringify claims),
        createMockSignature (base64UrlEncode (Json.stringify (esHeader key.kid)))
          (base64UrlEncode (Json.stringify claims)) key.kid] := by
    show splitDot (base64UrlEncode (Json.stringify (esHeader key.kid)) ++
      46 :: (base64UrlEncode (Json.stringify claims) ++
        46 :: createMockSignature (base64UrlEncode (Json.stringify (esHeader key.kid)))
          (base64UrlEncode (Json.stringify claims)) key.kid)) = _
    rw [splitDot_append _ _ (base64UrlEncode_ne_dot _ hhb),
      splitDot_append _ _ (base64UrlEncode_ne_dot _ hcb),
      splitDot_no_dot _ hsig]
  unfold parseJwt
  rw [hs]
  simp only [b64url_roundtrip _ hhb, b64url_roundtrip _ hcb, jsonParse_stringify]

theorem parseJwt_createTrustMark (claims : Json) (key : JsonWebKey)
    (hw : Json.wf claims = true) (hk : ∀ b ∈ key.kid, b < 256) :
    parseJwt (createTrustMark claims key) =
      some (tmHeader key.kid, claims,
        createMockSignature (base64UrlEncode (Json.stringify (tmHeader key.kid)))
          (base64UrlEncode (Json.stringify claims)) key.kid) := by
  have hhb : ∀ b ∈ Json.stringify (tmHeader key.kid), b < 256 :=
    stringify_lt _ (tmHeader_wf key.kid hk)
  have hcb : ∀ b ∈ Json.stringify claims, b < 256 := stringify_lt _ hw
  have hsig : ∀ c ∈ createMockSignature (base64UrlEncode (Json.stringify (tmHeader key.kid)))
      (base64UrlEncode (Json.stringify claims)) key.kid, c ≠ 46 := by
    rw [createMockSignature_eq]
    exact base64UrlEncode_ne_dot _ (sha256hex_lt _)
  have hs : splitDot (createTrustMark claims key) =
      [base64UrlEncode (Json.stringify (tmHeader key.kid)),
        base64UrlEncode (Json.stringify claims),
        createMockSignature (base64UrlEncode (Json.stringify (tmHeader key.kid)))
          (base64UrlEncode (Json.stringify claims)) key.kid] := by
    show splitDot (base64UrlEncode (Json.stringify (tmHeader key.kid)) ++
      46 :: (base64UrlEncode (Json.stringify claims) ++
        46 :: createMockSignature (base64UrlEncode (Json.stringify (tmHeader key.kid)))
          (base64UrlEncode (Json.stringify claims)) key.kid)) = _
    rw [splitDot_append _ _ (base64UrlEncode_ne_dot _ hhb),
      splitDot_append _ _ (base64UrlEncode_ne_dot _ hcb),
      splitDot_no_dot _ hsig]
  unfold parseJwt
  rw [hs]
  simp only [b64url_roundtrip _ hhb, b64url_roundtrip _ hcb, jsonParse_stringify]

end FederationJwtUtils

/-! ## Map and trust-chain helper lemmas -/

theorem mapGet_mem {α : Type} : ∀ (m : List (String × α)) (k : String) (v : α),
    mapGet m k = some v → (k, v) ∈ m
  | [], _, _, h => by simp [mapGet] at h
  | (k', v') :: r, k, v, h => by
      unfold mapGet at h
      split at h
      · injection h with h2
        subst h2
        have : k' = k := by assumption
        subst this
        simp
      · exact List.mem_cons.mpr (Or.inr (mapGet_mem r k v h))

theorem mapSet_mem {α : Type} : ∀ (m : List (String × α)) (k : String) (v : α)
    (p : String × α), p ∈ mapSet m k v → p ∈ m ∨ p = (k, v)
  | [], k, v, p, h => by
      simp only [mapSet, List.mem_singleton] at h
      exact Or.inr h
  | (k', v') :: r, k, v, p, h => by
      unfold mapSet at h
      split at h
      · rcases List.mem_cons.mp h with rfl | h2
        · exact Or.inr rfl
        · exact Or.inl (List.mem_cons.mpr (Or.inr h2))
      · rcases List.mem_cons.mp h with rfl | h2
        · exact Or.inl (by simp)
        · rcases mapSet_mem r k v p h2 with h3 | h3
          · exact Or.inl (by simp [h3])
          · exact Or.inr h3

theorem mapGet_mapSet {α : Type} : ∀ (m : List (String × α)) (k : String) (v : α),
    mapGet (mapSet m k v) k = some v
  | [], k, v => by simp [mapSet, mapGet]
  | (k', v') :: r, k, v => by
      unfold mapSet
      split
      · simp [mapGet]
      · unfold mapGet
        rw [if_neg (by assumption)]
        exact mapGet_mapSet r k v

theorem verify_not_found (m : List (String × EntityTrustStatus)) (entityId : String)
    (h : mapGet m entityId = none) :
    TrustChainService.verifyEntityTrust m entityId =
      { entityId := entityId, isTrusted := false, trustChains := [],
        trustMarks := none, metadata := some [] } := by
  unfold TrustChainService.verifyEntityTrust TrustChainService.resolveTrustChain
  rw [h]

theorem contains_notRecognized (a b c : String) :
    containsSubstring "not recognized" (a ++ " is not recognized by " ++ b ++ c) := by
  unfold containsSubstring
  have h1 : ("not recognized").data <:+: (" is not recognized by ").data := by decide
  refine h1.trans ?_
  rw [String.data_append, String.data_append, String.data_append, List.append_assoc]
  exact List.infix_append _ _ _

/-! ## Structural validation of freshly created statements -/

theorem validate_if_chain (A B L : Bool) :
    (if A = true then (if B = true then (if L = true then false else true) else false)
     else false) = (A && B && !L) := by
  cases A <;> cases B <;> cases L <;> rfl

theorem if_chain_true (A1 A2 B1 B2 B3 B4 E : Bool) :
    (if (A1 && A2) = true then
        (if (B1 && B2 && B3 && B4) = true then (if E = true then false else true)
         else false)
      else false) = true ↔
      (A1 = true ∧ A2 = true ∧ B1 = true ∧ B2 = true ∧ B3 = true ∧ B4 = true ∧
        E = false) := by
  cases A1 <;> cases A2 <;> cases B1 <;> cases B2 <;> cases B3 <;> cases B4 <;>
    cases E <;> decide

namespace FederationJwtUtils

theorem validateEntityStatement_create (p : Json) (k : JsonWebKey) (now : Int)
    (hw : Json.wf p = true) (hk : ∀ b ∈ k.kid, b < 256) :
    validateEntityStatement (createEntityStatement p k) now =
      (!k.kid.isEmpty &&
        (truthyField p (bs "iss") && truthyField p (bs "sub") &&
          truthyField p (bs "iat") && truthyField p (bs "exp") &&
          truthyField p (bs "jwks")) &&
        !jsLtNum (p.get (bs "exp")) now) := by
  unfold validateEntityStatement
  rw [parseJwt_createEntityStatement p k hw hk]
  have e0 : (esHeader k.kid).get (bs "typ") =
      some (Json.jstr (bs "entity-statement+jwt")) := rfl
  have e1 : truthyField (esHeader k.kid) (bs "alg") = true := rfl
  have e2 : truthyField (esHeader k.kid) (bs "kid") = !k.kid.isEmpty := rfl
  simp only [e0, if_true]
  rw [e1, e2, Bool.true_and]
  generalize (!k.kid.isEmpty) = A
  generalize (truthyField p (bs "iss") && truthyField p (bs "sub") &&
    truthyField p (bs "iat") && truthyField p (bs "exp") &&
    truthyField p (bs "jwks")) = B
  generalize jsLtNum (p.get (bs "exp")) now = L
  exact validate_if_chain A B L

theorem validateTrustMark_create (p : Json) (k : JsonWebKey) (now : Int)
    (hw : Json.wf p = true) (hk : ∀ b ∈ k.kid, b < 256) :
    validateTrustMark (createTrustMark p k) now =
      (!k.kid.isEmpty &&
        (truthyField p (bs "iss") && truthyField p (bs "sub") &&
          truthyField p (bs "iat") && truthyField p (bs "id")) &&
        !(truthyField p (bs "exp") && jsLtNum (p.get (bs "exp")) now)) := by
  unfold validateTrustMark
  rw [parseJwt_createTrustMark p k hw hk]
  have e0 : (tmHeader k.kid).get (bs "typ") =
      some (Json.jstr (bs "trust-mark+jwt")) := rfl
  have e1 : truthyField (tmHeader k.kid) (bs "alg") = true := rfl
  have e2 : truthyField (tmHeader k.kid) (bs "kid") = !k.kid.isEmpty := rfl
  simp only [e0, if_true]
  rw [e1, e2, Bool.true_and]
  generalize (!k.kid.isEmpty) = A
  generalize (truthyField p (bs "iss") && truthyField p (bs "sub") &&
    truthyField p (bs "iat") && truthyField p (bs "id")) = B
  generalize (truthyField p (bs "exp") && jsLtNum (p.get (bs "exp")) now) = L
  exact validate_if_chain A B L

theorem validateTrustMark_none (jwt : List Nat) (now : Int)
    (h : parseJwt jwt = none) : validateTrustMark jwt now = false := by
  unfold validateTrustMark
  rw [h]

theorem validateTrustMark_some (jwt : List Nat) (now : Int) (h p : Json)
    (sig : List Nat) (hp : parseJwt jwt = some (h, p, sig)) :
    validateTrustMark jwt now = tmCheck h p now := by
  unfold validateTrustMark tmCheck
  rw [hp]

theorem tmCheck_true (h p : Json) (now : Int) :
    tmCheck h p now = true ↔
      (h.get (bs "typ") = some (Json.jstr (bs "trust-mark+jwt")) ∧
        truthyField h (bs "alg") = true ∧ truthyField h (bs "kid") = true ∧
        truthyField p (bs "iss") = true ∧ truthyField p (bs "sub") = true ∧
        truthyField p (bs "iat") = true ∧ truthyField p (bs "id") = true ∧
        (truthyField p (bs "exp") && jsLtNum (p.get (bs "exp")) now) = false) := by
  unfold tmCheck
  cases hg : h.get (bs "typ") with
  | none => simp
  | some v =>
      cases v with
      | jstr t =>
          by_cases ht : t = bs "trust-mark+jwt"
          · subst ht
            show (if bs "trust-mark+jwt" = bs "trust-mark+jwt" then
                (if truthyField h (bs "alg") && truthyField h (bs "kid") then
                  (if truthyField p (bs "iss") && truthyField p (bs "sub") &&
                      truthyField p (bs "iat") && truthyField p (bs "id") then
                    (if truthyField p (bs "exp") && jsLtNum (p.get (bs "exp")) now
                     then false else true)
                  else false)
                else false)
              else false) = true ↔ _
            rw [if_pos rfl, if_chain_true]
            simp
          · show (if t = bs "trust-mark+jwt" then
                (if truthyField h (bs "alg") && truthyField h (bs "kid") then
                  (if truthyField p (bs "iss") && truthyField p (bs "sub") &&
                      truthyField p (bs "iat") && truthyField p (bs "id") then
                    (if truthyField p (bs "exp") && jsLtNum (p.get (bs "exp")) now
                     then false else true)
                  else false)
                else false)
              else false) = true ↔ _
            rw [if_neg ht]
            simp [ht]
      | jnull => simp
      | jbool b => simp
      | jnum n => simp
      | jarr a => simp
      | jobj o => simp

end FederationJwtUtils

/-! ## Claims -/

/-- C1 (counterexample): with the shipped seed data, the trust-chain-aware
`queryRecognition` for entity `https://op.example.org` and authority
`https://trust-anchor.example.org` with no assertion returns
`recognized = false`, contradicting the claimed `recognized: true`. -/
theorem c1_counterexample :
    (TrustRegistryService.queryRecognition TrustChainService.trustedEntities
      "https://op.example.org" "https://trust-anchor.example.org" none).recognized =
      false := by
  decide

/-- C1 (amended): on the shipped seed data the trust-chain-aware
`queryRecognition` for `https://op.example.org` under authority
`https://trust-anchor.example.org` returns `recognized = false`, even though
the subject itself is trusted and the authority is a declared trust anchor:
the code validates the authority by looking it up with `verifyEntityTrust`
(never consulting the trust-anchor list), the anchor is not a trusted entity,
and it differs from the service base URL. -/
theorem c1_theorem :
    (TrustRegistryService.queryRecognition TrustChainService.trustedEntities
      "https://op.example.org" "https://trust-anchor.example.org" none).recognized =
        false ∧
    (TrustChainService.verifyEntityTrust TrustChainService.trustedEntities
      "https://op.example.org").isTrusted = true ∧
    (TrustChainService.verifyEntityTrust TrustChainService.trustedEntities
      "https://trust-anchor.example.org").isTrusted = false ∧
    "https://trust-anchor.example.org" ∈ TrustChainService.trustAnchors ∧
    ("https://trust-anchor.example.org" = baseUrl) = False := by
  refine ⟨by decide, by decide, by decide, by decide, by simp [baseUrl]⟩

/-- C4: `checkEntityAuthorization` implies `verifyEntityTrust`: whenever the
authorization check returns true, the entity's trust status is trusted
(authorization never holds for an untrusted entity). -/
theorem c4_theorem (m : List (String × EntityTrustStatus))
    (entityId assertionId : String) (authorityId : Option String)
    (h : TrustChainService.checkEntityAuthorization m entityId assertionId authorityId =
      true) :
    (TrustChainService.verifyEntityTrust m entityId).isTrusted = true := by
  by_contra hne
  have hfalse : (TrustChainService.verifyEntityTrust m entityId).isTrusted = false := by
    cases hx : (TrustChainService.verifyEntityTrust m entityId).isTrusted
    · rfl
    · exact absurd hx hne
  unfold TrustChainService.checkEntityAuthorization at h
  simp [hfalse] at h

/-- C4 (witness): the seeded OpenID provider is authorized for
`openid_provider` and, by `c4_theorem`, trusted. -/
theorem c4_witness :
    TrustChainService.checkEntityAuthorization TrustChainService.trustedEntities
      "https://op.example.org" "openid_provider" none = true ∧
    (TrustChainService.verifyEntityTrust TrustChainService.trustedEntities
      "https://op.example.org").isTrusted = true :=
  ⟨by decide,
    c4_theorem TrustChainService.trustedEntities "https://op.example.org"
      "openid_provider" none (by decide)⟩

/-- C6: for every entity identifier absent from the trusted-entity data, both
recognition variants answer `recognized = false` with a message containing
"not recognized"; the functions are total, so no exception is possible. -/
theorem c6_theorem (m : List (String × EntityTrustStatus))
    (sm : List (String × FederationEntity)) (entityId authorityId : String)
    (assertionId : Option String)
    (h1 : mapGet m entityId = none) (h2 : mapGet sm entityId = none) :
    (TrustRegistryService.queryRecognition m entityId authorityId assertionId).recognized
        = false ∧
    containsSubstring "not recognized"
      (TrustRegistryService.queryRecognition m entityId authorityId assertionId).message ∧
    (SimpleTrustRegistryService.queryRecognition sm entityId authorityId
        assertionId).recognized = false ∧
    containsSubstring "not recognized"
      (SimpleTrustRegistryService.queryRecognition sm entityId authorityId
        assertionId).message := by
  have hv := verify_not_found m entityId h1
  unfold TrustRegistryService.queryRecognition SimpleTrustRegistryService.queryRecognition
  rw [hv, h2]
  cases assertionId with
  | none =>
      exact ⟨rfl, contains_notRecognized ("Entity " ++ entityId) authorityId "",
        rfl, contains_notRecognized ("Entity " ++ entityId) authorityId ""⟩
  | some a =>
      exact ⟨rfl, contains_notRecognized ("Entity " ++ entityId) authorityId (" for " ++ a),
        rfl, contains_notRecognized ("Entity " ++ entityId) authorityId (" for " ++ a)⟩

/-- C6 (witness): the unseeded identifier `https://unknown.example.org` is
absent from both seeds, so both variants answer not-recognized. -/
theorem c6_witness :
    mapGet TrustChainService.trustedEntities "https://unknown.example.org" = none ∧
    (TrustRegistryService.queryRecognition TrustChainService.trustedEntities
      "https://unknown.example.org" "https://trust-anchor.example.org" none).recognized =
      false :=
  ⟨by decide,
    (c6_theorem TrustChainService.trustedEntities simpleFederationEntities
      "https://unknown.example.org" "https://trust-anchor.example.org" none
      (by decide) (by decide)).1⟩

/-- C8: `verifyEntityTrust` is idempotent: two consecutive calls against the
same (unmutated) trusted-entity map yield results with equal `isTrusted` flags
and value-equal trust-chain summaries. In the embedding the method reads the
map and never writes it, so both calls are the same pure function of the map
and the identifier. -/
theorem c8_theorem (m : List (String × EntityTrustStatus)) (entityId : String)
    (r1 r2 : EntityTrustStatus)
    (h1 : r1 = TrustChainService.verifyEntityTrust m entityId)
    (h2 : r2 = TrustChainService.verifyEntityTrust m entityId) :
    r1.isTrusted = r2.isTrusted ∧ r1.trustChains = r2.trustChains := by
  subst h1
  subst h2
  exact ⟨rfl, rfl⟩

/-- C8 (witness): the two consecutive calls on the seeded map for the OpenID
provider agree. -/
theorem c8_witness :
    (TrustChainService.verifyEntityTrust TrustChainService.trustedEntities
        "https://op.example.org").isTrusted =
      (TrustChainService.verifyEntityTrust TrustChainService.trustedEntities
        "https://op.example.org").isTrusted ∧
    (TrustChainService.verifyEntityTrust TrustChainService.trustedEntities
        "https://op.example.org").trustChains =
      (TrustChainService.verifyEntityTrust TrustChainService.trustedEntities
        "https://op.example.org").trustChains :=
  c8_theorem _ _ _ _ rfl rfl

/-- C9: the trusted-entity map invariant: the seed satisfies it,
`addTrustedEntity` preserves it, and under it `verifyEntityTrust` reports
trusted exactly for keys of the map. -/
theorem c9_theorem :
    InvTrusted TrustChainService.trustedEntities ∧
    (∀ (m : List (String × EntityTrustStatus)) (entityId : String)
      (metadata : Option (List (String × String))) (trustAnchor : String),
      InvTrusted m →
      InvTrusted (TrustChainService.addTrustedEntity m entityId metadata trustAnchor)) ∧
    (∀ (m : List (String × EntityTrustStatus)) (entityId : String), InvTrusted m →
      ((TrustChainService.verifyEntityTrust m entityId).isTrusted = true ↔
        (mapGet m entityId).isSome = true)) := by
  refine ⟨?_, ?_, ?_⟩
  · intro p hp
    simp only [TrustChainService.trustedEntities, List.mem_cons, List.not_mem_nil,
      or_false] at hp
    rcases hp with rfl | rfl | rfl
    · exact ⟨rfl, _, rfl, rfl⟩
    · exact ⟨rfl, _, rfl, rfl⟩
    · exact ⟨rfl, _, rfl, rfl⟩
  · intro m entityId metadata trustAnchor hInv p hp
    rcases mapSet_mem m entityId _ p hp with h | h
    · exact hInv p h
    · subst h
      exact ⟨rfl, _, rfl, rfl⟩
  · intro m entityId hInv
    cases hm : mapGet m entityId with
    | some te =>
        have hte : te.isTrusted = true :=
          (hInv (entityId, te) (mapGet_mem m entityId te hm)).1
        unfold TrustChainService.verifyEntityTrust
        rw [hm]
        simp [hte]
    | none =>
        rw [verify_not_found m entityId hm]
        simp

/-- C9 (witness): instantiating the equivalence at the seed and the OpenID
provider: it is a key of the map, hence trusted. -/
theorem c9_witness :
    (TrustChainService.verifyEntityTrust TrustChainService.trustedEntities
      "https://op.example.org").isTrusted = true :=
  (c9_theorem.2.2 TrustChainService.trustedEntities "https://op.example.org"
    c9_theorem.1).mpr (by decide)

/-- C10: `registerEntity` never fails: on any registry state and identifier
(registered or not) it returns a fresh entry with status active, both
timestamps at the current instant and no trust marks or authority hints, and
stores it under the identifier, silently replacing any previous entry. -/
theorem c10_theorem (reg : List (String × RegisteredEntity)) (entityId : String)
    (metadata : List (String × String)) (now : Nat) :
    (EntityRegistryService.registerEntity reg entityId metadata now).2.status =
        EntityStatus.active ∧
    (EntityRegistryService.registerEntity reg entityId metadata now).2.registeredAt = now ∧
    (EntityRegistryService.registerEntity reg entityId metadata now).2.updatedAt = now ∧
    (EntityRegistryService.registerEntity reg entityId metadata now).2.trustMarks = none ∧
    (EntityRegistryService.registerEntity reg entityId metadata now).2.authorityHints =
        none ∧
    mapGet (EntityRegistryService.registerEntity reg entityId metadata now).1 entityId =
      some (EntityRegistryService.registerEntity reg entityId metadata now).2 :=
  ⟨rfl, rfl, rfl, rfl, rfl, mapGet_mapSet reg entityId _⟩

/-- C7: registration rejects a request supplying neither `jwksUri` nor `jwks`,
and a request whose `jwks` has no `keys` array, with a `BadRequestException`
in both cases; the `Except.error` result carries no created entity. -/
theorem c7_theorem :
    (∀ (repo : List TrustEntity) (dto : CreateEntityDto) (nowVersion : String),
      dto.jwksUri = none → dto.jwks = none →
      EntitiesService.register repo dto nowVersion =
        Except.error (RegError.badRequest "Either jwksUri or jwks must be provided")) ∧
    (∀ (repo : List TrustEntity) (dto : CreateEntityDto) (nowVersion : String) (j : Json),
      dto.jwks = some j → (∀ xs, j.get (bs "keys") ≠ some (Json.jarr xs)) →
      EntitiesService.register repo dto nowVersion =
        Except.error (RegError.badRequest "JWKS must contain a valid keys array")) := by
  constructor
  · intro repo dto nowVersion hu hj
    have hval : EntitiesService.validateRequiredFields dto.jwksUri dto.jwks =
        some (RegError.badRequest "Either jwksUri or jwks must be provided") := by
      unfold EntitiesService.validateRequiredFields
      rw [hu, hj]
      rfl
    unfold EntitiesService.register
    rw [hval]
  · intro repo dto nowVersion j hj hk
    have hor : (!truthyField j (bs "keys") ||
        !(match j.get (bs "keys") with
          | some (.jarr _) => true
          | _ => false)) = true := by
      cases hg : j.get (bs "keys") with
      | none => simp [truthyField, hg]
      | some v =>
          cases v with
          | jarr xs => exact absurd hg (hk xs)
          | jnull => simp [truthyField, hg, Json.truthy]
          | jbool b => simp [hg]
          | jnum n => simp [hg]
          | jstr s => simp [hg]
          | jobj fs => simp [hg]
    have hval : EntitiesService.validateRequiredFields dto.jwksUri dto.jwks =
        some (RegError.badRequest "JWKS must contain a valid keys array") := by
      unfold EntitiesService.validateRequiredFields
      rw [hj]
      rw [if_neg (by simp)]
      show (if (!truthyField j (bs "keys") ||
          !(match j.get (bs "keys") with
            | some (.jarr _) => true
            | _ => false)) = true then
          some (RegError.badRequest "JWKS must contain a valid keys array")
        else none) = _
      rw [if_pos hor]
    unfold EntitiesService.register
    rw [hval]

/-- C7 (witness): a request with neither key source, and one with
`jwks.keys` a number, are both rejected with the matching messages. -/
theorem c7_witness :
    EntitiesService.register []
        { entityType := "rp", name := "x", jwksUri := none, jwks := none,
          endpoints := none, policy := none } "1" =
      Except.error (RegError.badRequest "Either jwksUri or jwks must be provided") ∧
    EntitiesService.register []
        { entityType := "rp", name := "x", jwksUri := none,
          jwks := some (Json.jobj (JObj.ocons (bs "keys") (Json.jnum 3) JObj.onil)),
          endpoints := none, policy := none } "1" =
      Except.error (RegError.badRequest "JWKS must contain a valid keys array") :=
  ⟨c7_theorem.1 _ _ _ rfl rfl,
    c7_theorem.2 _ _ _ _ rfl (by
      intro xs h
      rw [show (Json.jobj (JObj.ocons (bs "keys") (Json.jnum 3) JObj.onil)).get
          (bs "keys") = some (Json.jnum 3) from rfl] at h
      simp at h)⟩

/-- C2 (counterexample): a freshly created, otherwise well-formed Entity
Statement whose `exp` equals the current time validates as `true`, whereas the
claim requires statements with `exp ≤ now` to be invalid. -/
theorem c2_counterexample :
    FederationJwtUtils.validateEntityStatement
      (FederationJwtUtils.createEntityStatement (sampleEntityClaims 5) sampleKey) 5 =
      true := by
  rw [FederationJwtUtils.validateEntityStatement_create (sampleEntityClaims 5) sampleKey 5
    (by decide) (by decide)]
  decide

/-- C2 (amended): the structural validation of an Entity Statement rejects a
claim set exactly when `exp` is strictly in the past (`exp < now`); for
`now ≤ exp` and otherwise well-formed claims it accepts, so a statement with
`exp` exactly equal to the current time is valid, not invalid. -/
theorem c2_theorem (p : Json) (k : FederationJwtUtils.JsonWebKey) (now e : Int)
    (hw : Json.wf p = true) (hk : ∀ b ∈ k.kid, b < 256)
    (he : p.get (bs "exp") = some (Json.jnum e)) :
    (e < now →
      FederationJwtUtils.validateEntityStatement
        (FederationJwtUtils.createEntityStatement p k) now = false) ∧
    (now ≤ e → k.kid.isEmpty = false →
      truthyField p (bs "iss") = true → truthyField p (bs "sub") = true →
      truthyField p (bs "iat") = true → truthyField p (bs "exp") = true →
      truthyField p (bs "jwks") = true →
      FederationJwtUtils.validateEntityStatement
        (FederationJwtUtils.createEntityStatement p k) now = true) := by
  rw [FederationJwtUtils.validateEntityStatement_create p k now hw hk]
  constructor
  · intro hlt
    have hj : jsLtNum (some (Json.jnum e)) now = true := by
      simp [jsLtNum]
      omega
    rw [he, hj]
    simp
  · intro hle h1 h2 h3 h4 h5 h6
    have hj : jsLtNum (some (Json.jnum e)) now = false := by
      simp [jsLtNum]
      omega
    rw [he, hj]
    simp [h1, h2, h3, h4, h5, h6]

/-- C2 (witness): the sample claim set with `exp = 5` is rejected at time 6
and accepted at time 5. -/
theorem c2_witness :
    FederationJwtUtils.validateEntityStatement
      (FederationJwtUtils.createEntityStatement (sampleEntityClaims 5) sampleKey) 6 =
        false ∧
    FederationJwtUtils.validateEntityStatement
      (FederationJwtUtils.createEntityStatement (sampleEntityClaims 5) sampleKey) 5 =
        true :=
  ⟨(c2_theorem (sampleEntityClaims 5) sampleKey 6 5 (by decide) (by decide) rfl).1
      (by decide),
    (c2_theorem (sampleEntityClaims 5) sampleKey 5 5 (by decide) (by decide) rfl).2
      (by decide) (by decide) (by decide) (by decide) (by decide) (by decide)
      (by decide)⟩

/-- C3: encode–decode round trip: for every well-formed claim set and signing
key, `parseJwt` applied to the statement created by `createEntityStatement`
(resp. `createTrustMark`) recovers the claims unchanged, with a header whose
`typ` is `entity-statement+jwt` (resp. `trust-mark+jwt`). -/
theorem c3_theorem (c : Json) (k : FederationJwtUtils.JsonWebKey)
    (hw : Json.wf c = true) (hk : ∀ b ∈ k.kid, b < 256) :
    (∃ h sig, FederationJwtUtils.parseJwt
        (FederationJwtUtils.createEntityStatement c k) = some (h, c, sig) ∧
      h.get (bs "typ") = some (Json.jstr (bs "entity-statement+jwt"))) ∧
    (∃ h sig, FederationJwtUtils.parseJwt
        (FederationJwtUtils.createTrustMark c k) = some (h, c, sig) ∧
      h.get (bs "typ") = some (Json.jstr (bs "trust-mark+jwt"))) :=
  ⟨⟨FederationJwtUtils.esHeader k.kid, _,
      FederationJwtUtils.parseJwt_createEntityStatement c k hw hk, rfl⟩,
    ⟨FederationJwtUtils.tmHeader k.kid, _,
      FederationJwtUtils.parseJwt_createTrustMark c k hw hk, rfl⟩⟩

/-- C3 (witness): the round trip instantiated at the sample claim set and the
sample key. -/
theorem c3_witness :
    (∃ h sig, FederationJwtUtils.parseJwt
        (FederationJwtUtils.createEntityStatement (sampleEntityClaims 5) sampleKey) =
          some (h, sampleEntityClaims 5, sig) ∧
      h.get (bs "typ") = some (Json.jstr (bs "entity-statement+jwt"))) ∧
    (∃ h sig, FederationJwtUtils.parseJwt
        (FederationJwtUtils.createTrustMark (sampleEntityClaims 5) sampleKey) =
          some (h, sampleEntityClaims 5, sig) ∧
      h.get (bs "typ") = some (Json.jstr (bs "trust-mark+jwt"))) :=
  c3_theorem (sampleEntityClaims 5) sampleKey (by decide) (by decide)

/-- C5 (counterexample): a Trust Mark created with `exp = 0` — an `exp` that
is present and long in the past — still validates as `true` at time 1000,
because the falsy value `0` skips the expiry check; the spec-worded validity
predicate rejects it. -/
theorem c5_counterexample :
    FederationJwtUtils.validateTrustMark
      (FederationJwtUtils.createTrustMark (sampleTrustMarkClaims (some 0)) sampleKey)
      1000 = true ∧
    ¬ specTrustMarkValid
      (FederationJwtUtils.createTrustMark (sampleTrustMarkClaims (some 0)) sampleKey)
      1000 := by
  constructor
  · rw [FederationJwtUtils.validateTrustMark_create (sampleTrustMarkClaims (some 0))
      sampleKey 1000 (by decide) (by decide)]
    decide
  · rintro ⟨h, p, sig, hparse, -, -, -, -, -, -, -, hexp⟩
    rw [FederationJwtUtils.parseJwt_createTrustMark (sampleTrustMarkClaims (some 0))
      sampleKey (by decide) (by decide)] at hparse
    simp only [Option.some.injEq, Prod.mk.injEq] at hparse
    obtain ⟨-, hp2, -⟩ := hparse
    subst hp2
    have h0 := hexp 0 rfl
    omega

/-- C5 (amended): for every Trust Mark string whose payload `exp` claim, when
present, is a JSON number — the only shape the service's own encoder emits,
and the domain on which the modelled comparison agrees with the JavaScript
`<` (which would coerce a non-numeric `exp`) — `validateTrustMark` returns
true exactly when parsing succeeds, the header `typ` is `trust-mark+jwt` with
truthy `alg` and `kid`, the payload has truthy `iss`, `sub`, `iat` and `id`,
and the expiry test `exp && exp < now` fails — i.e. `exp` is either absent,
the falsy number `0`, or not in the past. In particular a Trust Mark with no
`exp` is valid, but so is one whose present `exp` is `0`, even though it lies
in the past. -/
theorem c5_theorem (jwt : List Nat) (now : Int)
    (hnum : ∀ h p sig, FederationJwtUtils.parseJwt jwt = some (h, p, sig) →
      p.get (bs "exp") = none ∨ ∃ e : Int, p.get (bs "exp") = some (Json.jnum e)) :
    FederationJwtUtils.validateTrustMark jwt now = true ↔
      ∃ h p sig, FederationJwtUtils.parseJwt jwt = some (h, p, sig) ∧
        h.get (bs "typ") = some (Json.jstr (bs "trust-mark+jwt")) ∧
        truthyField h (bs "alg") = true ∧ truthyField h (bs "kid") = true ∧
        truthyField p (bs "iss") = true ∧ truthyField p (bs "sub") = true ∧
        truthyField p (bs "iat") = true ∧ truthyField p (bs "id") = true ∧
        (truthyField p (bs "exp") && jsLtNum (p.get (bs "exp")) now) = false := by
  cases hp : FederationJwtUtils.parseJwt jwt with
  | none =>
      rw [FederationJwtUtils.validateTrustMark_none jwt now hp]
      simp [hp]
  | some trip =>
      obtain ⟨h, p, sig⟩ := trip
      rw [FederationJwtUtils.validateTrustMark_some jwt now h p sig hp,
        FederationJwtUtils.tmCheck_true]
      constructor
      · rintro ⟨h1, h2, h3, h4, h5, h6, h7, h8⟩
        exact ⟨h, p, sig, rfl, h1, h2, h3, h4, h5, h6, h7, h8⟩
      · rintro ⟨h2, p2, sig2, hparse, hrest⟩
        simp only [Option.some.injEq, Prod.mk.injEq] at hparse
        obtain ⟨rfl, rfl, rfl⟩ := hparse
        exact hrest

/-- C5 (witness): a Trust Mark created without any `exp` claim has an
absent-or-numeric `exp`, and by the characterization it validates as `true`
at time 1000 (non-expiring). -/
theorem c5_witness :
    FederationJwtUtils.validateTrustMark
      (FederationJwtUtils.createTrustMark (sampleTrustMarkClaims none) sampleKey)
      1000 = true := by
  refine (c5_theorem
    (FederationJwtUtils.createTrustMark (sampleTrustMarkClaims none) sampleKey) 1000
    ?_).mpr
    ⟨FederationJwtUtils.tmHeader sampleKey.kid, sampleTrustMarkClaims none, _,
      FederationJwtUtils.parseJwt_createTrustMark (sampleTrustMarkClaims none) sampleKey
        (by decide) (by decide),
      rfl, by decide, by decide, by decide, by decide, by decide, by decide, by decide⟩
  intro h p sig hp
  rw [FederationJwtUtils.parseJwt_createTrustMark (sampleTrustMarkClaims none) sampleKey
    (by decide) (by decide)] at hp
  simp only [Option.some.injEq, Prod.mk.injEq] at hp
  obtain ⟨-, hp2, -⟩ := hp
  subst hp2
  exact Or.inl rfl

end HTrust
